import Mathlib

/-!
# libnetwork controller, datastore, host discovery and remote driver

A shallow embedding of `controller.go`, of `Key` and `PutObjectAtomic`
(`datastore/datastore.go`), of `diff`, `processCallback` and `StopDiscovery`
(`hostdiscovery/hostdiscovery.go`, `discovery.go`) and of the remote driver
(`drivers/remote/driver.go`).

* Go maps are association lists with unique keys (`AList`); the iteration
  order of `range` over a map is unspecified in Go and is therefore an
  explicit argument `ord` of every function that ranges over a table.
* Interface values (`driverapi.Driver`, `sandbox.Sandbox`,
  `datastore.DataStore`) are handles; what the collaborators answer when
  they are called is given by an `Env`, and every call that leaves the
  controller is appended to the `trace` of the `World`.
* A Go result pair `(value, error)` is a pair of options, `none` being `nil`.
* The mutex of the controller is not modelled: every operation is taken as
  one atomic step.
-/

namespace Libnetwork

/-! ## Data model -/

/-- Error values used by the controller (`error.go`, `driverapi`, `datastore`),
`external` for an error produced by a collaborator, and `errorsNew` for a
value made in place by `errors.New`. -/
inductive Error where
  | ErrInvalidName
  | ErrInvalidID
  | ErrInvalidNetworkDriver
  | ErrInvalidDatastore
  | NetworkNameError (name : String)
  | NetworkTypeError (networkType : String)
  | ErrActiveRegistration (networkType : String)
  | external (msg : String)
  | ErrInvalidAtomicRequest
  | ErrNotImplemented
  | errorsNew (text : String)
  deriving DecidableEq, Repr

/-- The identifier type `types.UUID`, a string. -/
abbrev UUID := String

/-- Handle of a `driverapi.Driver` interface value. -/
abbrev Driver := Nat

/-- Handle of a `sandbox.Sandbox` interface value. -/
abbrev Sandbox := Nat

/-- Handle of a `datastore.DataStore` interface value. -/
abbrev DataStore := Nat

/-- The generic option map handed to a driver. -/
abbrev Generic := List (String × String)

/-- The struct `network`, with the fields `controller.go` reads and writes.
`ctrlr` is the address of the owning controller, `endpoints` the ids of
the endpoint table. -/
structure network where
  name : String
  id : UUID
  networkType : String
  ctrlr : Option Nat
  driver : Option Driver
  generic : Generic
  endpoints : List UUID
  dbIndex : Nat
  deriving DecidableEq, Repr

/-- The struct `sandboxData`. -/
structure sandboxData where
  sandbox : Sandbox
  refCnt : Int
  deriving DecidableEq, Repr

/-- The type `networkTable`, `map[types.UUID]*network`. -/
abbrev networkTable := AList (fun _ : UUID => network)

/-- The type `driverTable`, `map[string]driverapi.Driver`. -/
abbrev driverTable := AList (fun _ : String => Driver)

/-- The type `sandboxTable`, `map[string]sandboxData`: the map holds
`sandboxData` values, not pointers. -/
abbrev sandboxTable := AList (fun _ : String => sandboxData)

/-- The struct `controller`; `addr` stands for the address of the struct,
which `network.ctrlr` points back to. -/
structure controller where
  networks : networkTable
  drivers : driverTable
  sandboxes : sandboxTable
  store : Option DataStore
  addr : Nat

/-- A call that leaves the controller. -/
inductive Event where
  | NewSandbox (key : String) (create : Bool)
  | Destroy (sb : Sandbox)
  | CreateNetwork (d : Driver) (id : UUID) (generic : Generic)
  | PutObjectAtomic (ds : DataStore) (n : network)
  deriving DecidableEq, Repr

/-- The controller together with the calls it has issued so far. -/
structure World where
  c : controller
  trace : List Event

/-- What the collaborators answer during one call of a controller method.
`IsReservedNetwork` is a function of this repository that is not part of
the sources at hand, so it is a parameter as well. -/
structure Env where
  NewSandbox : String → Bool → Except Error Sandbox
  GenerateRandomID : String
  IsReservedNetwork : String → Bool
  CreateNetwork : Driver → UUID → Generic → Option Error
  PutObjectAtomic : DataStore → network → Except Error Nat

/-- Go `int` arithmetic (64 bit, two's complement). -/
def wrapInt64 (x : Int) : Int :=
  (x + 2 ^ 63) % 2 ^ 64 - 2 ^ 63

/-! ## Sandbox reference counting -/

/-- The method `controller.sandboxAdd`. In the second branch `sData` is the copy
of the map element that the lookup returned: `sData.refCnt++` changes the
copy, and nothing is stored back into `c.sandboxes`. -/
def sandboxAdd (env : Env) (key : String) (create : Bool) (w : World) :
    (Option Sandbox × Option Error) × World :=
  match w.c.sandboxes.lookup key with
  | none =>
    let w1 : World := { w with trace := w.trace ++ [Event.NewSandbox key create] }
    match env.NewSandbox key create with
    | .error err => ((none, some err), w1)
    | .ok sb =>
      let sData : sandboxData := { sandbox := sb, refCnt := 1 }
      ((some sData.sandbox, none),
        { w1 with c := { w1.c with sandboxes := w1.c.sandboxes.insert key sData } })
  | some sData =>
    let sData1 : sandboxData := { sData with refCnt := wrapInt64 (sData.refCnt + 1) }
    ((some sData1.sandbox, none), w)

/-- The method `controller.sandboxRm`. For a key that is not in the map the lookup
gives the zero value, whose count becomes -1, so nothing happens. The
decremented count lives in the local copy only. -/
def sandboxRm (key : String) (w : World) : World :=
  match w.c.sandboxes.lookup key with
  | none => w
  | some sData =>
    if wrapInt64 (sData.refCnt - 1) = 0 then
      { c := { w.c with sandboxes := w.c.sandboxes.erase key }
        trace := w.trace ++ [Event.Destroy sData.sandbox] }
    else w

/-- The method `controller.sandboxGet`. -/
def sandboxGet (key : String) (w : World) : Option Sandbox :=
  match w.c.sandboxes.lookup key with
  | none => none
  | some sData => some sData.sandbox

/-- Runs `n` calls `sandboxAdd(key, create)` in a row. -/
def sandboxAddN (env : Env) (key : String) (create : Bool) : Nat → World → World
  | 0, w => w
  | n + 1, w => sandboxAddN env key create n (sandboxAdd env key create w).2

/-- Runs `m` calls `sandboxRm(key)` in a row. -/
def sandboxRmN (key : String) : Nat → World → World
  | 0, w => w
  | m + 1, w => sandboxRmN key m (sandboxRm key w)

/-- Number of `Destroy` calls in a trace. -/
def destroyCount (t : List Event) : Nat :=
  t.countP fun e => match e with
    | Event.Destroy _ => true
    | _ => false

/-- A controller with empty tables and no datastore. -/
def emptyController : controller :=
  { networks := ∅, drivers := ∅, sandboxes := ∅, store := none, addr := 0 }

/-- The world of `emptyController` before any call. -/
def emptyWorld : World :=
  { c := emptyController, trace := [] }

/-- An environment in which every collaborator succeeds: sandbox creation
returns handle 7, the store reports index 1, no name is reserved. -/
def okEnv : Env :=
  { NewSandbox := fun _ _ => .ok 7
    GenerateRandomID := "id1"
    IsReservedNetwork := fun _ => false
    CreateNetwork := fun _ _ _ => none
    PutObjectAtomic := fun _ _ => .ok 1 }

/-! ## Drivers and networks -/

/-- The method `controller.RegisterDriver`. -/
def RegisterDriver (networkType : String) (driver : Driver) (w : World) :
    Option Error × World :=
  match w.c.drivers.lookup networkType with
  | some _ => (some (Error.ErrActiveRegistration networkType), w)
  | none => (none, { w with c := { w.c with drivers := w.c.drivers.insert networkType driver } })

/-- A `NetworkOption`, seen through what it does to the generic option map. -/
abbrev NetworkOption := Generic → Generic

/-- Modelled from the spec: `network.processOptions` (network.go is not among
the sources) applies the options, in order, to build the generic option map
of the network. -/
def processOptions (options : List NetworkOption) (n : network) : network :=
  { n with generic := options.foldl (fun g opt => opt g) n.generic }

/-- The method `controller.addNetworkToStore`. The argument of `PutObjectAtomic` is
read as `n`; on success `PutObjectAtomic` has set the index of `n` to the
index reported by the store, so the updated record is returned too. -/
def addNetworkToStore (env : Env) (n : network) (w : World) :
    (Option Error × network) × World :=
  if env.IsReservedNetwork n.name then ((none, n), w)
  else
    match w.c.store with
    | none => ((some Error.ErrInvalidDatastore, n), w)
    | some ds =>
      let w1 : World := { w with trace := w.trace ++ [Event.PutObjectAtomic ds n] }
      match env.PutObjectAtomic ds n with
      | .error err => ((some err, n), w1)
      | .ok index => ((none, { n with dbIndex := index }), w1)

/-- The struct literal with which `NewNetwork` constructs the network object:
fields that the literal leaves out have their zero value. -/
def constructNetwork (c : controller) (name : String) (id : UUID) (d : Driver) : network :=
  { name := name
    id := id
    networkType := ""
    ctrlr := some c.addr
    driver := some d
    generic := []
    endpoints := []
    dbIndex := 0 }

/-- The method `controller.NewNetwork`. The loop over `c.networks` returns as soon
as one entry has the requested name, whatever the order of iteration. -/
def NewNetwork (env : Env) (networkType name : String) (options : List NetworkOption)
    (w : World) : (Option network × Option Error) × World :=
  if name = "" then ((none, some Error.ErrInvalidName), w)
  else
    match w.c.drivers.lookup networkType with
    | none => ((none, some Error.ErrInvalidNetworkDriver), w)
    | some d =>
      if w.c.networks.entries.any (fun e => decide (e.2.name = name)) then
        ((none, some (Error.NetworkNameError name)), w)
      else
        let network0 := constructNetwork w.c name env.GenerateRandomID d
        let network1 := processOptions options network0
        match addNetworkToStore env network1 w with
        | ((some err, _), w1) => ((none, some err), w1)
        | ((none, network2), w1) =>
          let w2 : World :=
            { w1 with trace := w1.trace ++ [Event.CreateNetwork d network2.id network2.generic] }
          match env.CreateNetwork d network2.id network2.generic with
          | some err => ((none, some err), w2)
          | none =>
            ((some network2, none),
              { w2 with c := { w2.c with networks := w2.c.networks.insert network2.id network2 } })

/-- The method `controller.Networks`: the values of the table, in the order `ord` in
which `range` happens to visit them. -/
def Networks (ord : List network → List network) (w : World) : List network :=
  ord (w.c.networks.entries.map fun e => e.2)

/-- The loop of `controller.WalkNetworks` over a snapshot. The walker is a closure:
it reads and updates its captured variables `σ`. Next to the final closure
state the loop returns the log of its calls of the walker: the network
passed and the boolean returned, in the order of the calls. -/
def walkLoop {σ : Type} (walker : network → σ → Bool × σ) :
    List network → σ → σ × List (network × Bool)
  | [], s => (s, [])
  | n :: rest, s =>
    if (walker n s).1 then ((walker n s).2, [(n, true)])
    else
      ((walkLoop walker rest (walker n s).2).1,
        (n, false) :: (walkLoop walker rest (walker n s).2).2)

/-- The method `controller.WalkNetworks`. -/
def WalkNetworks {σ : Type} (ord : List network → List network)
    (walker : network → σ → Bool × σ) (s : σ) (w : World) : σ × List (network × Bool) :=
  walkLoop walker (Networks ord w) s

/-- The method `controller.NetworkByName`; the closure `s` captures the variable `n`. -/
def NetworkByName (ord : List network → List network) (name : String) (w : World) :
    (Option network × Option Error) × World :=
  if name = "" then ((none, some Error.ErrInvalidName), w)
  else
    let s : network → Option network → Bool × Option network := fun current n =>
      if current.name = name then (true, some current) else (false, n)
    (((WalkNetworks ord s none w).1, none), w)

/-- The method `controller.NetworkByID`. -/
def NetworkByID (id : String) (w : World) : (Option network × Option Error) × World :=
  if id = "" then ((none, some Error.ErrInvalidID), w)
  else
    match w.c.networks.lookup id with
    | some n => ((some n, none), w)
    | none => ((none, none), w)

/-- The method `controller.initDataStore`; `newDataStore` is the answer of
`datastore.NewDataStore`. Starting the watch task is not modelled. -/
def initDataStore (newDataStore : Except Error DataStore) (w : World) : Option Error × World :=
  match newDataStore with
  | .error err => (some err, w)
  | .ok store => (none, { w with c := { w.c with store := some store } })

/-- The constructor `New`. `initDrivers` (not among the sources) registers the
built-in drivers and is a parameter acting on the drivers table; an error
of `initDataStore` is logged and dropped. -/
def New (initDrivers : driverTable → Option Error × driverTable)
    (newDataStore : Except Error DataStore) (addr : Nat) : Option World × Option Error :=
  let c : controller :=
    { networks := ∅, sandboxes := ∅, drivers := ∅, store := none, addr := addr }
  match initDrivers c.drivers with
  | (some err, _) => (none, some err)
  | (none, drivers) =>
    (some (initDataStore newDataStore { c := { c with drivers := drivers }, trace := [] }).2, none)

/-- One `NewNetwork` call of a sequence, with the answers of the
collaborators during that call. -/
structure NewNetworkCall where
  env : Env
  networkType : String
  name : String
  options : List NetworkOption

/-- Runs a sequence of `NewNetwork` calls, collecting the results in order. -/
def runNewNetworks : List NewNetworkCall → World →
    List (Option network × Option Error) × World
  | [], w => ([], w)
  | call :: rest, w =>
    let r := NewNetwork call.env call.networkType call.name call.options w
    ((r.1 :: (runNewNetworks rest r.2).1), (runNewNetworks rest r.2).2)

/-- An environment in which the store accepts the write (index 1) and the
driver refuses to create the network. -/
def driverFailEnv : Env :=
  { NewSandbox := fun _ _ => .ok 7
    GenerateRandomID := "id1"
    IsReservedNetwork := fun _ => false
    CreateNetwork := fun _ _ _ => some (Error.external "driver failure")
    PutObjectAtomic := fun _ _ => .ok 1 }

/-- A controller with driver 1 registered for "bridge" and datastore 5. -/
def bridgeStoreWorld : World :=
  { c := { networks := ∅, drivers := (∅ : driverTable).insert "bridge" 1, sandboxes := ∅,
           store := some 5, addr := 0 }
    trace := [] }

/-- A controller with driver 1 registered for "bridge" and no datastore. -/
def bridgeNoStoreWorld : World :=
  { c := { networks := ∅, drivers := (∅ : driverTable).insert "bridge" 1, sandboxes := ∅,
           store := none, addr := 0 }
    trace := [] }

/-- An environment like `okEnv` in which "host" is the one reserved name. -/
def reservedHostEnv : Env :=
  { okEnv with IsReservedNetwork := fun name => decide (name = "host") }

/-- The network record that `NewNetwork` builds on `bridgeStoreWorld` for
the given name and id, after the store has reported index 1. -/
def bridgeNet (name : String) (id : UUID) : network :=
  { constructNetwork bridgeStoreWorld.c name id 1 with dbIndex := 1 }

/-- The world `bridgeStoreWorld` after network "net1" with id "id1" has been created. -/
def net1World : World :=
  { c := { bridgeStoreWorld.c with
           networks := (∅ : networkTable).insert "id1" (bridgeNet "net1" "id1") }
    trace := [Event.PutObjectAtomic 5 (constructNetwork bridgeStoreWorld.c "net1" "id1" 1),
              Event.CreateNetwork 1 "id1" []] }

/-- An initialisation of the built-in drivers that registers nothing and succeeds. -/
def noBuiltinDrivers : driverTable → Option Error × driverTable :=
  fun t => (none, t)

/-- The record that `NewNetwork` builds on `bridgeNoStoreWorld` for the reserved name "host". -/
def hostNet : network :=
  constructNetwork bridgeNoStoreWorld.c "host" "id1" 1

/-- A walker without captured variables that stops at the network named "net1". -/
def stopAtNet1 : network → Unit → Bool × Unit :=
  fun n _ => (decide (n.name = "net1"), ())

/-- The collaborators accept a `NewNetwork` call on a controller with the given
drivers table and store: the name and the generated id are not empty, a driver
is registered for the type and its `CreateNetwork` succeeds on the generated
id, and the persistence step succeeds, because the name is reserved or because
the store is set and accepts the write. -/
def Accepted (drivers : driverTable) (store : Option DataStore) (call : NewNetworkCall) : Prop :=
  call.name ≠ "" ∧ call.env.GenerateRandomID ≠ "" ∧
  ∃ d, drivers.lookup call.networkType = some d ∧
    (∀ g, call.env.CreateNetwork d call.env.GenerateRandomID g = none) ∧
    (call.env.IsReservedNetwork call.name = true ∨
      ∃ ds, store = some ds ∧ ∀ n, ∃ index, call.env.PutObjectAtomic ds n = .ok index)

/-- Two calls, `NewNetwork("bridge", "net1")` and `NewNetwork("bridge", "net2")`, during
which the ids "id1" and "id2" are generated. -/
def twoCalls : List NewNetworkCall :=
  [{ env := okEnv, networkType := "bridge", name := "net1", options := [] },
   { env := { okEnv with GenerateRandomID := "id2" }, networkType := "bridge", name := "net2",
     options := [] }]

/-! ## Watch notifications -/

/-- The interface `store.KVEntry`, through its methods `Key`, `Value` and `LastIndex`. -/
structure KVEntry where
  Key : String
  Value : List Nat
  LastIndex : Nat
  deriving DecidableEq, Repr

/-- The method `controller.newNetworkFromStore`. A type without registered driver
gives the nil driver, the zero value of the map lookup. -/
def newNetworkFromStore (n : network) (w : World) : World :=
  let n1 : network := { n with ctrlr := some w.c.addr }
  let n2 : network := { n1 with driver := w.c.drivers.lookup n1.networkType }
  { w with c := { w.c with networks := w.c.networks.insert n2.id n2 } }

/-- One turn of the loop in the callback of `controller.watchNewNetworks`.
`decode` is `json.Unmarshal` into a fresh `network`, `none` when it returns an
error. The line printed for a watched network is not modelled. -/
def watchEntry (decode : List Nat → Option network) (entry : KVEntry) (w : World) : World :=
  match decode entry.Value with
  | none => w
  | some n0 =>
    let n : network := { n0 with dbIndex := entry.LastIndex }
    match w.c.networks.lookup n.id with
    | some existing =>
      if existing.dbIndex = n.dbIndex then w else newNetworkFromStore n w
    | none => newNetworkFromStore n w

/-- The callback of `controller.watchNewNetworks`: the loop over the entries of
one notification. -/
def watchCallback (decode : List Nat → Option network) : List KVEntry → World → World
  | [], w => w
  | entry :: rest, w => watchCallback decode rest (watchEntry decode entry w)

/-- A step that changes the controller: a call of `RegisterDriver`, a call of
`NewNetwork` with the answers of the collaborators, or a watch notification
handed to `newNetworkFromStore`. -/
inductive Action where
  | RegisterDriver (networkType : String) (driver : Driver)
  | NewNetwork (env : Env) (networkType name : String) (options : List NetworkOption)
  | newNetworkFromStore (n : network)

/-- The world after one step. -/
def Action.step : Action → World → World
  | Action.RegisterDriver networkType driver, w => (Libnetwork.RegisterDriver networkType driver w).2
  | Action.NewNetwork env networkType name options, w =>
    (Libnetwork.NewNetwork env networkType name options w).2
  | Action.newNetworkFromStore n, w => Libnetwork.newNetworkFromStore n w

/-- The world after a sequence of steps. -/
def runActions : List Action → World → World
  | [], w => w
  | a :: rest, w => runActions rest (a.step w)

/-- Whether a step is a watch notification. -/
def Action.isWatch : Action → Bool
  | Action.newNetworkFromStore _ => true
  | _ => false

/-- No two entries of the networks table have the same name. -/
def NamesUnique (w : World) : Prop :=
  (w.c.networks.entries.map fun e => e.2.name).Nodup

/-- Every entry of the networks table is stored under its own id. -/
def StoredUnderOwnId (w : World) : Prop :=
  ∀ k n, w.c.networks.lookup k = some n → n.id = k

/-- The name of the record is not held by an entry with another id. -/
def NameFree (n : network) (w : World) : Prop :=
  ∀ k m, w.c.networks.lookup k = some m → m.name = n.name → k = n.id

/-- Every watch notification of the sequence carries, at the time it is
processed, a record whose name is not held by an entry with another id. -/
def WatchNamesFree : List Action → World → Prop
  | [], _ => True
  | Action.newNetworkFromStore n :: rest, w =>
    NameFree n w ∧ WatchNamesFree rest (Libnetwork.newNetworkFromStore n w)
  | a :: rest, w => WatchNamesFree rest (a.step w)

/-- A fresh controller whose datastore was initialised (handle 5). -/
def freshStoreWorld : World :=
  { c := { networks := ∅, drivers := ∅, sandboxes := ∅, store := some 5, addr := 0 }
    trace := [] }

/-- A record decoded from a watch notification: a network "net1" with id "id9",
written by another controller at index 4. -/
def remoteNet1 : network :=
  { name := "net1", id := "id9", networkType := "bridge", ctrlr := none, driver := none,
    generic := [], endpoints := [], dbIndex := 4 }

/-- A decoder that reads the value `[9]` as `remoteNet1` and fails on every other value. -/
def decodeNine : List Nat → Option network :=
  fun value => if value = [9] then some remoteNet1 else none

/-- A second record decoded from a watch notification: a network "net8" with
id "id8" of a type without registered driver. -/
def remoteNet8 : network :=
  { name := "net8", id := "id8", networkType := "overlay", ctrlr := none, driver := none,
    generic := [], endpoints := [], dbIndex := 0 }

/-- A decoder that reads `[9]` as `remoteNet1`, `[8]` as `remoteNet8` and fails
on every other value. -/
def decodeTwo : List Nat → Option network :=
  fun value =>
    if value = [9] then some remoteNet1 else if value = [8] then some remoteNet8 else none

/-- A notification of three entries: the record "id9" at index 4, a value that
does not decode, and the record "id8" at index 6. -/
def threeEntries : List KVEntry :=
  [⟨"docker/libnetwork/network/id9/", [9], 4⟩, ⟨"docker/libnetwork/network/x/", [3], 5⟩,
   ⟨"docker/libnetwork/network/id8/", [8], 6⟩]

/-! ## Remote driver -/

namespace remote

/-- Handle of a `plugins.Client`. -/
abbrev Client := Nat

/-- The struct `driver` of package remote; `callback` is `none` for the nil
interface and the handle of the registry otherwise. -/
structure driver where
  callback : Option Nat
  endpoint : Option Client
  deriving DecidableEq, Repr

/-- The error value `errNoCallback`. -/
def errNoCallback : Error :=
  Error.errorsNew "No Callback handler registered with Driver"

/-- The method `driver.registerRemoteDriver`. `RegisterDriver` is the method of the
callback interface `driverapi.DriverCallback`, acting on the state `R` of the
registry behind it. -/
def registerRemoteDriver {R : Type} (RegisterDriver : String → driver → R → Option Error × R)
    (d : driver) (networkType : String) (client : Client) (registry : R) :
    (Option driver × Option Error) × R :=
  let newDriver : driver := { callback := none, endpoint := some client }
  match d.callback with
  | none => ((none, some errNoCallback), registry)
  | some _ =>
    match RegisterDriver networkType newDriver registry with
    | (some err, registry1) => ((none, some err), registry1)
    | (none, registry1) => ((some newDriver, none), registry1)

/-- The method `driver.Config`. -/
def Config (_d : driver) (_option : Generic) : Option Error :=
  some Error.ErrNotImplemented

/-- The method `driver.CreateNetwork`. -/
def CreateNetwork (_d : driver) (_id : UUID) (_option : Generic) : Option Error :=
  some Error.ErrNotImplemented

/-- The method `driver.DeleteNetwork`. -/
def DeleteNetwork (_d : driver) (_nid : UUID) : Option Error :=
  some Error.ErrNotImplemented

/-- The method `driver.CreateEndpoint`; the first component is the `*sandbox.Info`. -/
def CreateEndpoint (_d : driver) (_nid _eid : UUID) (_epOptions : Generic) :
    Option Nat × Option Error :=
  (none, some Error.ErrNotImplemented)

/-- The method `driver.DeleteEndpoint`. -/
def DeleteEndpoint (_d : driver) (_nid _eid : UUID) : Option Error :=
  some Error.ErrNotImplemented

/-- The method `driver.EndpointInfo`. -/
def EndpointInfo (_d : driver) (_nid _eid : UUID) : Option Generic × Option Error :=
  (none, some Error.ErrNotImplemented)

/-- The method `driver.Join`; the first component is the `*driverapi.JoinInfo`. -/
def Join (_d : driver) (_nid _eid : UUID) (_sboxKey : String) (_options : Generic) :
    Option Nat × Option Error :=
  (none, some Error.ErrNotImplemented)

/-- The method `driver.Leave`. -/
def Leave (_d : driver) (_nid _eid : UUID) (_options : Generic) : Option Error :=
  some Error.ErrNotImplemented

/-- The controller as the registry behind the callback: `handleOf` gives the
interface handle under which a driver object is registered. -/
def controllerCallback (handleOf : driver → Driver) :
    String → driver → World → Option Error × World :=
  fun networkType newDriver w => Libnetwork.RegisterDriver networkType (handleOf newDriver) w

/-- A remote driver factory wired to registry 1. -/
def wiredDriver : driver :=
  { callback := some 1, endpoint := none }

/-- A handle assignment: the driver object bound to client `c` has handle `100 + c`. -/
def sampleHandle : driver → Driver :=
  fun d => 100 + d.endpoint.getD 0

end remote

/-! ## Datastore key paths -/

/-- Go `strings.Join`. -/
def stringsJoin : List String → String → String
  | [], _ => ""
  | [a], _ => a
  | a :: b :: rest, sep => a ++ sep ++ stringsJoin (b :: rest) sep

/-- The function `datastore.Key`. -/
def Key (key : List String) : String :=
  let keychain := ["docker", "libnetwork"] ++ key
  let str := stringsJoin keychain "/"
  str ++ "/"

/-! ## Atomic writes of the datastore -/

namespace datastore

/-- What an object shows through the interface `KV`: its key path, its byte
value (`none` for nil) and its index. -/
structure KV where
  Key : List String
  Value : Option (List Nat)
  Index : Nat
  deriving DecidableEq, Repr

/-- The method `SetIndex` of the interface `KV`. -/
def KV.SetIndex (obj : KV) (index : Nat) : KV :=
  { obj with Index := index }

/-- What the key/value store (`store.Store`) answers during one call of
`PutObjectAtomic`: `AtomicPut` gives the success flag or an error, `Get` the
value and the index of a key or an error. -/
structure StoreEnv where
  AtomicPut : String → List Nat → List Nat → Nat → Except Error Bool
  Get : String → Except Error (List Nat × Nat)

/-- An operation issued on the key/value store. -/
inductive StoreCall where
  | AtomicPut (key : String) (previous value : List Nat) (index : Nat)
  | Get (key : String)
  deriving DecidableEq, Repr

/-- The method `datastore.PutObjectAtomic`. The result is the returned error, the
object as it is afterwards, and the store operations issued, in order. -/
def PutObjectAtomic (store : StoreEnv) (kvObject : Option KV) :
    (Option Error × Option KV) × List StoreCall :=
  match kvObject with
  | none => ((some (Error.errorsNew "kvObject is nil"), none), [])
  | some obj =>
    match obj.Value with
    | none => ((some Error.ErrInvalidAtomicRequest, some obj), [])
    | some kvObjValue =>
      let calls1 := [StoreCall.AtomicPut (Libnetwork.Key obj.Key) [] kvObjValue obj.Index]
      match store.AtomicPut (Libnetwork.Key obj.Key) [] kvObjValue obj.Index with
      | .error err => ((some err, some obj), calls1)
      | .ok _ =>
        let calls2 := calls1 ++ [StoreCall.Get (Libnetwork.Key obj.Key)]
        match store.Get (Libnetwork.Key obj.Key) with
        | .error err => ((some err, some obj), calls2)
        | .ok (_, index) => ((none, some (obj.SetIndex index)), calls2)

/-- A store that accepts every write and reports index 8 for every key. -/
def acceptingStore : StoreEnv :=
  { AtomicPut := fun _ _ _ _ => .ok true
    Get := fun _ => .ok ([1], 8) }

/-- A store that refuses every write with a conflict. -/
def conflictStore : StoreEnv :=
  { AtomicPut := fun _ _ _ _ => .error (Error.external "Key modified")
    Get := fun _ => .ok ([1], 8) }

/-- A record under the key path `network/id1` with value `[1]` and index 3. -/
def sampleRecord : KV :=
  { Key := ["network", "id1"], Value := some [1], Index := 3 }

end datastore

/-! ## Host discovery -/

/-- The outcome of a call that may panic. -/
inductive Outcome (α : Type) where
  | returned (a : α)
  | panic (text : String)
  deriving DecidableEq, Repr

/-- The struct `discovery.Entry`. -/
structure Entry where
  Host : String
  Port : String
  deriving DecidableEq, Repr

/-- The struct `hostDiscovery` of `discovery.go` (package libnetwork). -/
structure hostDiscovery where
  discovery : Option Nat
  nodes : List Entry
  deriving DecidableEq, Repr

/-- The constructor `NewHostDiscovery` of `discovery.go`. -/
def NewHostDiscovery : hostDiscovery :=
  { discovery := none, nodes := [] }

/-- The method `hostDiscovery.StopDiscovery` of `discovery.go`: it returns nil. -/
def StopDiscovery (h : hostDiscovery) : Outcome (Option Error × hostDiscovery) :=
  Outcome.returned (none, h)

/-- A call of one of the two membership callbacks, with its argument. -/
inductive Callback (IP : Type) where
  | joinCallback (entries : List IP)
  | leaveCallback (entries : List IP)
  deriving DecidableEq, Repr

/-- The function `processCallback` of `discovery.go`: its body is empty, so no
callback is called. -/
def processCallback (_entries : List Entry) : List (Callback Entry) :=
  []

namespace hostdiscovery

/-- What package `net` does with an address of type `IP`: `ipString` is the
method `IP.String`, `ParseIP` the function `net.ParseIP`. -/
structure NetPkg (IP : Type) where
  ipString : IP → String
  ParseIP : String → IP

/-- The method `Add` of a `mapset` set of strings, the set being the list of its
elements without repetition. -/
def setAdd (set : List String) (x : String) : List String :=
  if x ∈ set then set else set ++ [x]

/-- The method `Difference` of a `mapset` set. -/
def Difference (set other : List String) : List String :=
  set.filter fun x => decide (x ∉ other)

/-- The function `diff`. `ord` is the order in which `ToSlice` lists the
elements of a set, which `mapset` leaves open. -/
def diff {IP : Type} (net : NetPkg IP) (ord : List String → List String)
    (existing updated : List IP) : List IP × List IP :=
  let updateSet := updated.foldl (fun set ip => setAdd set (net.ipString ip)) []
  let existingSet := existing.foldl (fun set ip => setAdd set (net.ipString ip)) []
  let addSlice := ord (Difference updateSet existingSet)
  let removeSlice := ord (Difference existingSet updateSet)
  (addSlice.map net.ParseIP, removeSlice.map net.ParseIP)

/-- The function `hosts`. -/
def hosts {IP : Type} (net : NetPkg IP) (entries : List Entry) : List IP :=
  entries.map fun entry => net.ParseIP entry.Host

/-- The struct `hostDiscovery` of package hostdiscovery; `stopChanClosed` is the
state of the channel that `stopChan` refers to. -/
structure hostDiscovery (IP : Type) where
  discovery : Option Nat
  nodes : List IP
  stopChanClosed : Bool
  deriving DecidableEq, Repr

/-- The constructor `NewHostDiscovery`: no nodes, and a channel fresh from `make`. -/
def NewHostDiscovery {IP : Type} : hostDiscovery IP :=
  { discovery := none, nodes := [], stopChanClosed := false }

/-- The method `hostDiscovery.StopDiscovery`: `close` of a channel that is closed
already is a run-time panic. -/
def StopDiscovery {IP : Type} (h : hostDiscovery IP) :
    Outcome (Option Error × hostDiscovery IP) :=
  if h.stopChanClosed then Outcome.panic "close of closed channel"
  else Outcome.returned (none, { h with stopChanClosed := true })

/-- The method `hostDiscovery.processCallback`: the object afterwards and the
callbacks called, in order. No statement of the method assigns `h.nodes`. -/
def processCallback {IP : Type} (net : NetPkg IP) (ord : List String → List String)
    (h : hostDiscovery IP) (entries : List Entry) : hostDiscovery IP × List (Callback IP) :=
  let updated := hosts net entries
  let existing := h.nodes
  let added := (diff net ord existing updated).1
  let removed := (diff net ord existing updated).2
  (h,
    (if added.length > 0 then [Callback.joinCallback added] else []) ++
    (if removed.length > 0 then [Callback.leaveCallback removed] else []))

/-- A model of package `net` in which an address is its canonical text. -/
def textNet : NetPkg String :=
  { ipString := fun ip => ip, ParseIP := fun s => s }

/-- The snapshot of the hosts 10.0.0.1 and 10.0.0.2. -/
def snapshotAB : List Entry :=
  [{ Host := "10.0.0.1", Port := "0" }, { Host := "10.0.0.2", Port := "0" }]

/-- The snapshot of the hosts 10.0.0.2 and 10.0.0.3. -/
def snapshotBC : List Entry :=
  [{ Host := "10.0.0.2", Port := "0" }, { Host := "10.0.0.3", Port := "0" }]

end hostdiscovery

/-- The caller segments of the wire format `docker/libnetwork/<caller segments...>/`:
every segment is followed by one separator. -/
def callerSegments : List String → String
  | [] => ""
  | seg :: rest => seg ++ "/" ++ callerSegments rest

/-- The key path as the spec writes its wire format: the fixed two-segment
namespace, then the caller segments, each closed by a separator. -/
def wireFormat (key : List String) : String :=
  "docker/libnetwork/" ++ callerSegments key

/-! ## Theorems -/

/-- For a key of the table `sandboxAdd` returns the stored handle and changes nothing. -/
theorem sandboxAdd_present (env : Env) (key : String) (create : Bool) (w : World)
    (sData : sandboxData) (h : w.c.sandboxes.lookup key = some sData) :
    sandboxAdd env key create w = ((some sData.sandbox, none), w) := by
  simp [sandboxAdd, h]

/-- For a key of the table any number of `sandboxAdd` calls changes nothing. -/
theorem sandboxAddN_present (env : Env) (key : String) (create : Bool) (sData : sandboxData)
    (n : Nat) (w : World) (h : w.c.sandboxes.lookup key = some sData) :
    sandboxAddN env key create n w = w := by
  induction n with
  | zero => rfl
  | succ n ih => simp [sandboxAddN, sandboxAdd_present env key create w sData h, ih]

/-- C1 (evaluation at the failing input): after two successful
`sandboxAdd("ns", true)` calls on an empty table the stored count is still 1,
and a single `sandboxRm("ns")` already invokes `Destroy` and removes the entry,
although one reference is still held. -/
theorem C1_second_reference_lost :
    sandboxGet "ns" (sandboxAddN okEnv "ns" true 2 emptyWorld) = some 7 ∧
    (sandboxAddN okEnv "ns" true 2 emptyWorld).c.sandboxes.lookup "ns" = some ⟨7, 1⟩ ∧
    destroyCount (sandboxAddN okEnv "ns" true 2 emptyWorld).trace = 0 ∧
    sandboxGet "ns" (sandboxRmN "ns" 1 (sandboxAddN okEnv "ns" true 2 emptyWorld)) = none ∧
    destroyCount (sandboxRmN "ns" 1 (sandboxAddN okEnv "ns" true 2 emptyWorld)).trace = 1 ∧
    (sandboxRmN "ns" 1 (sandboxAddN okEnv "ns" true 2 emptyWorld)).trace =
      [Event.NewSandbox "ns" true, Event.Destroy 7] := by
  decide

/-- C2: `sandboxAdd` calls `NewSandbox` only for a key that is not in the
table. For such a key a successful creation is stored with count 1 and
returned, other keys are untouched, and a failed creation is returned and
leaves the table as it was. For a key in the table nothing is called,
nothing changes and the stored handle is returned. -/
theorem C2_sandboxAdd_creates_on_first_reference (env : Env) (key : String) (create : Bool)
    (w : World) :
    (∀ sData, w.c.sandboxes.lookup key = some sData →
      sandboxAdd env key create w = ((sandboxGet key w, none), w) ∧
      sandboxGet key w = some sData.sandbox) ∧
    (∀ sb, w.c.sandboxes.lookup key = none → env.NewSandbox key create = .ok sb →
      (sandboxAdd env key create w).1 = (some sb, none) ∧
      (sandboxAdd env key create w).2.c.sandboxes.lookup key = some ⟨sb, 1⟩ ∧
      sandboxGet key (sandboxAdd env key create w).2 = some sb ∧
      (∀ k, k ≠ key →
        (sandboxAdd env key create w).2.c.sandboxes.lookup k = w.c.sandboxes.lookup k) ∧
      (sandboxAdd env key create w).2.trace = w.trace ++ [Event.NewSandbox key create]) ∧
    (∀ err, w.c.sandboxes.lookup key = none → env.NewSandbox key create = .error err →
      (sandboxAdd env key create w).1 = (none, some err) ∧
      (sandboxAdd env key create w).2.c.sandboxes = w.c.sandboxes) ∧
    ((sandboxAdd env key create w).2.trace ≠ w.trace → w.c.sandboxes.lookup key = none) := by
  refine ⟨?_, ?_, ?_, ?_⟩
  · intro sData h
    simp [sandboxAdd, sandboxGet, h]
  · intro sb h hsb
    refine ⟨?_, ?_, ?_, ?_, ?_⟩
    · simp [sandboxAdd, h, hsb]
    · simp [sandboxAdd, h, hsb, AList.lookup_insert]
    · simp [sandboxAdd, sandboxGet, h, hsb, AList.lookup_insert]
    · intro k hk
      simp [sandboxAdd, h, hsb, AList.lookup_insert_ne hk]
    · simp [sandboxAdd, h, hsb]
  · intro err h herr
    simp [sandboxAdd, h, herr]
  · intro hne
    cases h : w.c.sandboxes.lookup key with
    | none => rfl
    | some sData => exact absurd (by simp [sandboxAdd, h]) hne

/-- C2, at a concrete input: the first `sandboxAdd("ns", true)` on the empty
table creates the sandbox, the second returns the stored handle and calls
nothing. -/
theorem C2_sandboxAdd_witness :
    ((sandboxAdd okEnv "ns" true emptyWorld).1 = (some 7, none) ∧
      (sandboxAdd okEnv "ns" true emptyWorld).2.c.sandboxes.lookup "ns" = some ⟨7, 1⟩ ∧
      sandboxGet "ns" (sandboxAdd okEnv "ns" true emptyWorld).2 = some 7 ∧
      (∀ k, k ≠ "ns" →
        (sandboxAdd okEnv "ns" true emptyWorld).2.c.sandboxes.lookup k =
          emptyWorld.c.sandboxes.lookup k) ∧
      (sandboxAdd okEnv "ns" true emptyWorld).2.trace =
        emptyWorld.trace ++ [Event.NewSandbox "ns" true]) ∧
    (sandboxAdd okEnv "ns" true (sandboxAdd okEnv "ns" true emptyWorld).2 =
        ((sandboxGet "ns" (sandboxAdd okEnv "ns" true emptyWorld).2, none),
          (sandboxAdd okEnv "ns" true emptyWorld).2) ∧
      sandboxGet "ns" (sandboxAdd okEnv "ns" true emptyWorld).2 =
        some (sandboxData.mk 7 1).sandbox) :=
  ⟨(C2_sandboxAdd_creates_on_first_reference okEnv "ns" true emptyWorld).2.1 7 (by decide) rfl,
   (C2_sandboxAdd_creates_on_first_reference okEnv "ns" true
      (sandboxAdd okEnv "ns" true emptyWorld).2).1 ⟨7, 1⟩ (by decide)⟩

/-- C7: `RegisterDriver` fails with `ErrActiveRegistration(type)` exactly when
the type already has a driver, and then changes nothing; otherwise it returns
no error, binds the type to the driver and keeps every other binding. A second
registration of the same type fails in every case. -/
theorem C7_RegisterDriver_one_shot (networkType : String) (driver : Driver) (w : World) :
    ((RegisterDriver networkType driver w).1 = some (Error.ErrActiveRegistration networkType) ↔
      (w.c.drivers.lookup networkType).isSome) ∧
    ((RegisterDriver networkType driver w).1 ≠ none ↔
      (w.c.drivers.lookup networkType).isSome) ∧
    ((w.c.drivers.lookup networkType).isSome → (RegisterDriver networkType driver w).2 = w) ∧
    (w.c.drivers.lookup networkType = none →
      (RegisterDriver networkType driver w).1 = none ∧
      (RegisterDriver networkType driver w).2.c.drivers.lookup networkType = some driver ∧
      ∀ t, t ≠ networkType →
        (RegisterDriver networkType driver w).2.c.drivers.lookup t = w.c.drivers.lookup t) ∧
    (∀ driver2, (RegisterDriver networkType driver2 (RegisterDriver networkType driver w).2).1 =
      some (Error.ErrActiveRegistration networkType)) := by
  cases h : w.c.drivers.lookup networkType with
  | some d =>
    simp [RegisterDriver, h]
  | none =>
    refine ⟨by simp [RegisterDriver, h], by simp [RegisterDriver, h], by simp, ?_, ?_⟩
    · intro _
      refine ⟨by simp [RegisterDriver, h], by simp [RegisterDriver, h, AList.lookup_insert], ?_⟩
      intro t ht
      simp [RegisterDriver, h, AList.lookup_insert_ne ht]
    · intro driver2
      simp [RegisterDriver, h, AList.lookup_insert]

/-- C7, at a concrete input: registering "bridge" on the empty controller
succeeds and binds it; registering "bridge" again fails and changes nothing. -/
theorem C7_RegisterDriver_witness :
    ((RegisterDriver "bridge" 1 emptyWorld).1 = none ∧
      (RegisterDriver "bridge" 1 emptyWorld).2.c.drivers.lookup "bridge" = some 1 ∧
      ∀ t, t ≠ "bridge" →
        (RegisterDriver "bridge" 1 emptyWorld).2.c.drivers.lookup t =
          emptyWorld.c.drivers.lookup t) ∧
    RegisterDriver "bridge" 2 (RegisterDriver "bridge" 1 emptyWorld).2 =
      (some (Error.ErrActiveRegistration "bridge"), (RegisterDriver "bridge" 1 emptyWorld).2) :=
  ⟨(C7_RegisterDriver_one_shot "bridge" 1 emptyWorld).2.2.2.1 (by decide),
   Prod.ext
     ((C7_RegisterDriver_one_shot "bridge" 1 emptyWorld).2.2.2.2 2)
     ((C7_RegisterDriver_one_shot "bridge" 2 (RegisterDriver "bridge" 1 emptyWorld).2).2.2.1
       (by decide))⟩

/-- After a successful first `sandboxAdd`, further `sandboxAdd` calls leave
the world as it is, and the first `sandboxRm` destroys the sandbox. -/
theorem sandboxRm_after_adds (env : Env) (key : String) (create : Bool) (w : World) (sb : Sandbox)
    (n : Nat) (h : w.c.sandboxes.lookup key = none) (hsb : env.NewSandbox key create = .ok sb) :
    sandboxGet key (sandboxAddN env key create (n + 1) w) = some sb ∧
    sandboxGet key (sandboxRm key (sandboxAddN env key create (n + 1) w)) = none ∧
    (sandboxRm key (sandboxAddN env key create (n + 1) w)).trace =
      w.trace ++ [Event.NewSandbox key create, Event.Destroy sb] := by
  have h1 : (sandboxAdd env key create w).2.c.sandboxes.lookup key = some ⟨sb, 1⟩ := by
    simp [sandboxAdd, h, hsb, AList.lookup_insert]
  have h2 : (sandboxAdd env key create w).2.trace = w.trace ++ [Event.NewSandbox key create] := by
    simp [sandboxAdd, h, hsb]
  have h3 : sandboxAddN env key create (n + 1) w = (sandboxAdd env key create w).2 := by
    rw [sandboxAddN]
    exact sandboxAddN_present env key create ⟨sb, 1⟩ n _ h1
  rw [h3]
  refine ⟨by simp [sandboxGet, h1], ?_, ?_⟩
  · simp [sandboxGet, sandboxRm, h1, wrapInt64, AList.lookup_erase]
  · simp [sandboxRm, h1, wrapInt64, h2]

/-- A network of the table has the requested name exactly when the loop of
`NewNetwork` finds one. -/
theorem any_name_iff (t : networkTable) (name : String) :
    t.entries.any (fun e => decide (e.2.name = name)) = true ↔
      ∃ k n, t.lookup k = some n ∧ n.name = name := by
  simp only [List.any_eq_true, decide_eq_true_eq]
  constructor
  · rintro ⟨⟨k, n⟩, hmem, hn⟩
    exact ⟨k, n, AList.mem_lookup_iff.mpr hmem, hn⟩
  · rintro ⟨k, n, hl, hn⟩
    exact ⟨⟨k, n⟩, AList.mem_lookup_iff.mp hl, hn⟩

/-- C3: `NewNetwork` fails with `ErrInvalidName` for the empty name, with
`ErrInvalidNetworkDriver` for a non-empty name and a type without driver, and
with `NetworkNameError(name)` for a non-empty name that a network of the table
already has, whatever registered type is requested. In each of these cases,
and so whenever one of the three conditions holds, no network is returned and
the world is the same afterwards: the table is unchanged and neither the driver
nor the store has been called. -/
theorem C3_NewNetwork_validation_failures (env : Env) (networkType name : String)
    (options : List NetworkOption) (w : World) :
    (name = "" →
      NewNetwork env networkType name options w = ((none, some Error.ErrInvalidName), w)) ∧
    (name ≠ "" → w.c.drivers.lookup networkType = none →
      NewNetwork env networkType name options w =
        ((none, some Error.ErrInvalidNetworkDriver), w)) ∧
    (name ≠ "" → (w.c.drivers.lookup networkType).isSome →
      (∃ k n, w.c.networks.lookup k = some n ∧ n.name = name) →
      NewNetwork env networkType name options w =
        ((none, some (Error.NetworkNameError name)), w)) ∧
    ((name = "" ∨ w.c.drivers.lookup networkType = none ∨
        ∃ k n, w.c.networks.lookup k = some n ∧ n.name = name) →
      (NewNetwork env networkType name options w).1.1 = none ∧
      (NewNetwork env networkType name options w).1.2 ≠ none ∧
      (NewNetwork env networkType name options w).2 = w) := by
  have hdup : ∀ d, name ≠ "" → w.c.drivers.lookup networkType = some d →
      (∃ k n, w.c.networks.lookup k = some n ∧ n.name = name) →
      NewNetwork env networkType name options w =
        ((none, some (Error.NetworkNameError name)), w) := by
    intro d hn hd hex
    have hany := (any_name_iff w.c.networks name).mpr hex
    simp [NewNetwork, hn, hd, hany]
  refine ⟨?_, ?_, ?_, ?_⟩
  · intro hn
    simp [NewNetwork, hn]
  · intro hn hd
    simp [NewNetwork, hn, hd]
  · intro hn hd hex
    obtain ⟨d, hd⟩ := Option.isSome_iff_exists.mp hd
    exact hdup d hn hd hex
  · intro h
    by_cases hn : name = ""
    · simp [NewNetwork, hn]
    · cases hd : w.c.drivers.lookup networkType with
      | none => simp [NewNetwork, hn, hd]
      | some d =>
        rcases h with h | h | h
        · exact absurd h hn
        · rw [hd] at h
          cases h
        · rw [hdup d hn hd h]
          simp

/-- C3, at concrete inputs: the empty name, a type without driver, and the
name of an existing network. -/
theorem C3_NewNetwork_validation_witness :
    NewNetwork okEnv "bridge" "" [] emptyWorld = ((none, some Error.ErrInvalidName), emptyWorld) ∧
    NewNetwork okEnv "bridge" "net1" [] emptyWorld =
      ((none, some Error.ErrInvalidNetworkDriver), emptyWorld) ∧
    NewNetwork okEnv "bridge" "net1" [] net1World =
      ((none, some (Error.NetworkNameError "net1")), net1World) :=
  ⟨(C3_NewNetwork_validation_failures okEnv "bridge" "" [] emptyWorld).1 rfl,
   (C3_NewNetwork_validation_failures okEnv "bridge" "net1" [] emptyWorld).2.1
      (by decide) (by decide),
   (C3_NewNetwork_validation_failures okEnv "bridge" "net1" [] net1World).2.2.1
      (by decide) (by decide) ⟨"id1", bridgeNet "net1" "id1", by decide, by decide⟩⟩

/-- The persistence step does not touch the controller, and it issues at most
one call, a `PutObjectAtomic` of the record. -/
theorem addNetworkToStore_effect (env : Env) (n : network) (w : World) :
    (addNetworkToStore env n w).2.c = w.c ∧
    ((addNetworkToStore env n w).2.trace = w.trace ∨
      ∃ ds, w.c.store = some ds ∧
        (addNetworkToStore env n w).2.trace = w.trace ++ [Event.PutObjectAtomic ds n]) := by
  unfold addNetworkToStore
  split
  · exact ⟨rfl, Or.inl rfl⟩
  · split
    · exact ⟨rfl, Or.inl rfl⟩
    · rename_i ds hds
      split
      · exact ⟨rfl, Or.inr ⟨ds, hds, rfl⟩⟩
      · exact ⟨rfl, Or.inr ⟨ds, hds, rfl⟩⟩

/-- C5 (counterexample): with a datastore present, a name that is not reserved
and a driver whose `CreateNetwork` fails, `NewNetwork` returns the driver error
after the write to the datastore has been issued: the trace holds the
`PutObjectAtomic` call, and it precedes the `CreateNetwork` call. -/
theorem C5_store_written_before_driver_fails :
    (NewNetwork driverFailEnv "bridge" "net1" [] bridgeStoreWorld).1 =
      (none, some (Error.external "driver failure")) ∧
    (NewNetwork driverFailEnv "bridge" "net1" [] bridgeStoreWorld).2.trace =
      [Event.PutObjectAtomic 5 (constructNetwork bridgeStoreWorld.c "net1" "id1" 1),
       Event.CreateNetwork 1 "id1" []] := by
  decide

/-- The result of a `NewNetwork` call that passes validation, in terms of the
result of its persistence step: an error of that step is returned as it is;
after its success `CreateNetwork` is the next call, whose error is returned
with the table unchanged, and whose success inserts the record. -/
theorem NewNetwork_relative_to_persist (env : Env) (networkType name : String)
    (options : List NetworkOption) (w : World) (d : Driver)
    (hname : name ≠ "") (hd : w.c.drivers.lookup networkType = some d)
    (hdup : ∀ k n, w.c.networks.lookup k = some n → n.name ≠ name) :
    (∀ err,
      (addNetworkToStore env
        (processOptions options (constructNetwork w.c name env.GenerateRandomID d)) w).1.1
          = some err →
      NewNetwork env networkType name options w =
        ((none, some err),
          (addNetworkToStore env
            (processOptions options (constructNetwork w.c name env.GenerateRandomID d)) w).2)) ∧
    (∀ n1 w1,
      addNetworkToStore env
        (processOptions options (constructNetwork w.c name env.GenerateRandomID d)) w
          = ((none, n1), w1) →
      (∀ err, env.CreateNetwork d n1.id n1.generic = some err →
        NewNetwork env networkType name options w =
          ((none, some err),
            { c := w.c, trace := w1.trace ++ [Event.CreateNetwork d n1.id n1.generic] })) ∧
      (env.CreateNetwork d n1.id n1.generic = none →
        NewNetwork env networkType name options w =
          ((some n1, none),
            { c := { w.c with networks := w.c.networks.insert n1.id n1 }
              trace := w1.trace ++ [Event.CreateNetwork d n1.id n1.generic] }))) := by
  have hany : w.c.networks.entries.any (fun e => decide (e.2.name = name)) = false := by
    cases h : w.c.networks.entries.any (fun e => decide (e.2.name = name)) with
    | false => rfl
    | true =>
      obtain ⟨k, n, hl, hn⟩ := (any_name_iff w.c.networks name).mp h
      exact absurd hn (hdup k n hl)
  refine ⟨?_, ?_⟩
  · intro err herr
    simp only [NewNetwork, hname, hd, hany, if_false, Bool.false_eq_true]
    split
    · rename_i e1 n1 w1 heq
      rw [heq] at herr ⊢
      simp only [Option.some.injEq] at herr
      rw [herr]
    · rename_i n1 w1 heq
      rw [heq] at herr
      cases herr
  · intro n1 w1 heq
    have hc : w1.c = w.c := by
      have := (addNetworkToStore_effect env
        (processOptions options (constructNetwork w.c name env.GenerateRandomID d)) w).1
      rw [heq] at this
      exact this
    constructor
    · intro err herr
      simp [NewNetwork, hname, hd, hany, heq, herr, hc]
    · intro hok
      simp [NewNetwork, hname, hd, hany, heq, hok, hc]

/-- C5 (amended): on a `NewNetwork` call that passes validation, `n1` being the
record built from the arguments and the options: the record is persisted
first, then the driver is called, and the insertion into the table comes last.
For a reserved name nothing is written and `CreateNetwork` is the only call.
For another name without store the call fails with `ErrInvalidDatastore` and
calls nothing. With store `ds` the first call is `PutObjectAtomic ds n1`; if it
fails, that error is returned, the driver is not called and the table is
unchanged; if it succeeds with an index, `CreateNetwork` is called next on the
id and the options of the record, after the write has been issued: when it
fails, that error is returned and the table is unchanged, when it succeeds the
record with that index is returned and inserted under its id. -/
theorem C5_persist_then_driver_then_insert (env : Env) (networkType name : String)
    (options : List NetworkOption) (w : World) (d : Driver) (n1 : network)
    (hname : name ≠ "") (hd : w.c.drivers.lookup networkType = some d)
    (hdup : ∀ k n, w.c.networks.lookup k = some n → n.name ≠ name)
    (hn1 : n1 = processOptions options (constructNetwork w.c name env.GenerateRandomID d)) :
    (env.IsReservedNetwork name = true →
      (∀ err, env.CreateNetwork d n1.id n1.generic = some err →
        NewNetwork env networkType name options w =
          ((none, some err),
            { c := w.c, trace := w.trace ++ [Event.CreateNetwork d n1.id n1.generic] })) ∧
      (env.CreateNetwork d n1.id n1.generic = none →
        NewNetwork env networkType name options w =
          ((some n1, none),
            { c := { w.c with networks := w.c.networks.insert n1.id n1 }
              trace := w.trace ++ [Event.CreateNetwork d n1.id n1.generic] }))) ∧
    (env.IsReservedNetwork name = false → w.c.store = none →
      NewNetwork env networkType name options w =
        ((none, some Error.ErrInvalidDatastore), w)) ∧
    (∀ ds, env.IsReservedNetwork name = false → w.c.store = some ds →
      (∀ err, env.PutObjectAtomic ds n1 = .error err →
        NewNetwork env networkType name options w =
          ((none, some err),
            { c := w.c, trace := w.trace ++ [Event.PutObjectAtomic ds n1] })) ∧
      (∀ index, env.PutObjectAtomic ds n1 = .ok index →
        (∀ err, env.CreateNetwork d n1.id n1.generic = some err →
          NewNetwork env networkType name options w =
            ((none, some err),
              { c := w.c
                trace := w.trace ++ [Event.PutObjectAtomic ds n1,
                  Event.CreateNetwork d n1.id n1.generic] })) ∧
        (env.CreateNetwork d n1.id n1.generic = none →
          NewNetwork env networkType name options w =
            ((some { n1 with dbIndex := index }, none),
              { c := { w.c with
                       networks := w.c.networks.insert n1.id { n1 with dbIndex := index } }
                trace := w.trace ++ [Event.PutObjectAtomic ds n1,
                  Event.CreateNetwork d n1.id n1.generic] })))) := by
  have hany : w.c.networks.entries.any (fun e => decide (e.2.name = name)) = false := by
    cases h : w.c.networks.entries.any (fun e => decide (e.2.name = name)) with
    | false => rfl
    | true =>
      obtain ⟨k, n, hl, hn⟩ := (any_name_iff w.c.networks name).mp h
      exact absurd hn (hdup k n hl)
  have hn1name : n1.name = name := by rw [hn1]; rfl
  refine ⟨?_, ?_, ?_⟩
  · intro hres
    have hp : addNetworkToStore env n1 w = ((none, n1), w) := by
      simp [addNetworkToStore, hn1name, hres]
    refine ⟨?_, ?_⟩
    · intro err herr
      simp [NewNetwork, hname, hd, hany, ← hn1, hp, herr]
    · intro hok
      simp [NewNetwork, hname, hd, hany, ← hn1, hp, hok]
  · intro hres hstore
    have hp : addNetworkToStore env n1 w = ((some Error.ErrInvalidDatastore, n1), w) := by
      simp [addNetworkToStore, hn1name, hres, hstore]
    simp [NewNetwork, hname, hd, hany, ← hn1, hp]
  · intro ds hres hstore
    refine ⟨?_, ?_⟩
    · intro err hput
      have hp : addNetworkToStore env n1 w =
          ((some err, n1), { w with trace := w.trace ++ [Event.PutObjectAtomic ds n1] }) := by
        simp [addNetworkToStore, hn1name, hres, hstore, hput]
      simp [NewNetwork, hname, hd, hany, ← hn1, hp]
    · intro index hput
      have hp : addNetworkToStore env n1 w =
          ((none, { n1 with dbIndex := index }),
            { w with trace := w.trace ++ [Event.PutObjectAtomic ds n1] }) := by
        simp [addNetworkToStore, hn1name, hres, hstore, hput]
      refine ⟨?_, ?_⟩
      · intro err herr
        simp [NewNetwork, hname, hd, hany, ← hn1, hp, herr]
      · intro hok
        simp [NewNetwork, hname, hd, hany, ← hn1, hp, hok]

/-- C5 (amended), at concrete inputs on `bridgeStoreWorld`: when store and driver
both succeed the network is inserted after both calls, and when the driver
fails its error is returned after the write has been issued, with the table
unchanged. -/
theorem C5_persist_then_driver_witness :
    NewNetwork okEnv "bridge" "net1" [] bridgeStoreWorld =
      ((some (bridgeNet "net1" "id1"), none), net1World) ∧
    NewNetwork driverFailEnv "bridge" "net1" [] bridgeStoreWorld =
      ((none, some (Error.external "driver failure")),
        { c := bridgeStoreWorld.c
          trace := [Event.PutObjectAtomic 5 (constructNetwork bridgeStoreWorld.c "net1" "id1" 1),
                    Event.CreateNetwork 1 "id1" []] }) :=
  ⟨(((C5_persist_then_driver_then_insert okEnv "bridge" "net1" [] bridgeStoreWorld 1
      (constructNetwork bridgeStoreWorld.c "net1" "id1" 1)
      (by decide) (by decide) (by intro k n h; simp [bridgeStoreWorld] at h) rfl).2.2
      5 rfl rfl).2 1 rfl).2 rfl,
   (((C5_persist_then_driver_then_insert driverFailEnv "bridge" "net1" [] bridgeStoreWorld 1
      (constructNetwork bridgeStoreWorld.c "net1" "id1" 1)
      (by decide) (by decide) (by intro k n h; simp [bridgeStoreWorld] at h) rfl).2.2
      5 rfl rfl).2 1 rfl).1 (Error.external "driver failure") rfl⟩

/-- C6 (counterexample): `New` with a failing datastore returns a controller
without store and without error; once "bridge" is registered there,
`NewNetwork("bridge", "net1")` with a driver that would succeed fails with
`ErrInvalidDatastore` and inserts nothing. -/
theorem C6_no_store_rejects_new_network :
    New noBuiltinDrivers (.error (Error.external "store unreachable")) 0 =
      (some emptyWorld, none) ∧
    RegisterDriver "bridge" 1 emptyWorld = (none, bridgeNoStoreWorld) ∧
    okEnv.CreateNetwork 1 "id1" [] = none ∧
    NewNetwork okEnv "bridge" "net1" [] bridgeNoStoreWorld =
      ((none, some Error.ErrInvalidDatastore), bridgeNoStoreWorld) :=
  ⟨rfl, rfl, rfl, rfl⟩

/-- C6 (amended): when the initialisation of the datastore fails and that of
the drivers succeeds, `New` returns a controller with no store and no error. On
a controller without store, `NewNetwork` with a non-empty unused name and a
registered driver fails with `ErrInvalidDatastore`, calling nothing and
changing nothing, unless the name is reserved; for a reserved name and a driver
whose `CreateNetwork` succeeds it returns the network and inserts it. -/
theorem C6_degraded_mode (initDrivers : driverTable → Option Error × driverTable)
    (err : Error) (addr : Nat) (drivers : driverTable)
    (env : Env) (networkType name : String) (options : List NetworkOption) (w : World)
    (d : Driver)
    (hinit : initDrivers ∅ = (none, drivers))
    (hstore : w.c.store = none)
    (hname : name ≠ "") (hd : w.c.drivers.lookup networkType = some d)
    (hdup : ∀ k n, w.c.networks.lookup k = some n → n.name ≠ name) :
    New initDrivers (.error err) addr =
      (some { c := { networks := ∅, drivers := drivers, sandboxes := ∅, store := none,
                     addr := addr }
              trace := [] }, none) ∧
    (env.IsReservedNetwork name = false →
      NewNetwork env networkType name options w =
        ((none, some Error.ErrInvalidDatastore), w)) ∧
    (env.IsReservedNetwork name = true →
      env.CreateNetwork d env.GenerateRandomID
        (processOptions options (constructNetwork w.c name env.GenerateRandomID d)).generic
          = none →
      NewNetwork env networkType name options w =
        ((some (processOptions options (constructNetwork w.c name env.GenerateRandomID d)), none),
          { c := { w.c with
                   networks := w.c.networks.insert env.GenerateRandomID
                     (processOptions options
                       (constructNetwork w.c name env.GenerateRandomID d)) }
            trace := w.trace ++ [Event.CreateNetwork d env.GenerateRandomID
              (processOptions options
                (constructNetwork w.c name env.GenerateRandomID d)).generic] })) := by
  have hany : w.c.networks.entries.any (fun e => decide (e.2.name = name)) = false := by
    cases h : w.c.networks.entries.any (fun e => decide (e.2.name = name)) with
    | false => rfl
    | true =>
      obtain ⟨k, n, hl, hn⟩ := (any_name_iff w.c.networks name).mp h
      exact absurd hn (hdup k n hl)
  refine ⟨?_, ?_, ?_⟩
  · have hinit2 : initDrivers (∅ : driverTable) = (none, drivers) := hinit
    simp [New, initDataStore, hinit2]
  · intro hres
    simp [NewNetwork, hname, hd, hany, addNetworkToStore, processOptions, constructNetwork,
      hres, hstore]
  · intro hres hok
    simp only [processOptions, constructNetwork] at hok
    simp [NewNetwork, hname, hd, hany, addNetworkToStore, processOptions, constructNetwork,
      hres, hok]

/-- C6 (amended), at a concrete input: on the controller without store the
reserved name "host" is created and inserted, and "net1" is rejected. -/
theorem C6_degraded_mode_witness :
    NewNetwork reservedHostEnv "bridge" "net1" [] bridgeNoStoreWorld =
      ((none, some Error.ErrInvalidDatastore), bridgeNoStoreWorld) ∧
    NewNetwork reservedHostEnv "bridge" "host" [] bridgeNoStoreWorld =
      ((some hostNet, none),
        { c := { bridgeNoStoreWorld.c with
                 networks := bridgeNoStoreWorld.c.networks.insert "id1" hostNet }
          trace := [Event.CreateNetwork 1 "id1" []] }) :=
  ⟨(C6_degraded_mode noBuiltinDrivers (Error.external "store unreachable") 0 ∅
      reservedHostEnv "bridge" "net1" [] bridgeNoStoreWorld 1 rfl rfl (by decide) (by decide)
      (by intro k n h; simp [bridgeNoStoreWorld] at h)).2.1 (by decide),
   (C6_degraded_mode noBuiltinDrivers (Error.external "store unreachable") 0 ∅
      reservedHostEnv "bridge" "host" [] bridgeNoStoreWorld 1 rfl rfl (by decide) (by decide)
      (by intro k n h; simp [bridgeNoStoreWorld] at h)).2.2 (by decide) rfl⟩

/-- The values of a table are the networks some key is bound to. -/
theorem mem_values_iff (t : networkTable) (n : network) :
    n ∈ t.entries.map (fun e => e.2) ↔ ∃ k, t.lookup k = some n := by
  simp only [List.mem_map]
  constructor
  · rintro ⟨⟨k, m⟩, hmem, rfl⟩
    exact ⟨k, AList.mem_lookup_iff.mpr hmem⟩
  · rintro ⟨k, hl⟩
    exact ⟨⟨k, n⟩, AList.mem_lookup_iff.mp hl, rfl⟩

/-- The snapshot of `Networks` holds the networks some key is bound to. -/
theorem mem_Networks_iff (ord : List network → List network) (hord : ∀ l, (ord l).Perm l)
    (w : World) (n : network) :
    n ∈ Networks ord w ↔ ∃ k, w.c.networks.lookup k = some n := by
  unfold Networks
  rw [(hord _).mem_iff]
  exact mem_values_iff w.c.networks n

/-- The networks the walker was called on form an initial segment of the snapshot. -/
theorem walkLoop_calls_initial {σ : Type} (walker : network → σ → Bool × σ)
    (l : List network) (s : σ) :
    (walkLoop walker l s).2.map Prod.fst <+: l := by
  induction l generalizing s with
  | nil => simp [walkLoop]
  | cons n rest ih =>
    by_cases h : (walker n s).1 = true
    · simp [walkLoop, h]
    · have := ih (walker n s).2
      simp [walkLoop, h, List.prefix_cons_inj, this]

/-- No call of the walker follows a call that returned true. -/
theorem walkLoop_stops {σ : Type} (walker : network → σ → Bool × σ)
    (l : List network) (s : σ) (pre : List (network × Bool)) (c : network × Bool)
    (post : List (network × Bool)) (hlog : (walkLoop walker l s).2 = pre ++ c :: post)
    (hc : c.2 = true) : post = [] := by
  induction l generalizing s pre with
  | nil => simp [walkLoop] at hlog
  | cons n rest ih =>
    by_cases h : (walker n s).1 = true
    · simp only [walkLoop, h, if_true] at hlog
      cases pre with
      | nil =>
        simp only [List.nil_append, List.cons.injEq] at hlog
        exact hlog.2.symm
      | cons x pre1 => simp at hlog
    · simp only [walkLoop, h, if_false, Bool.false_eq_true] at hlog
      cases pre with
      | nil =>
        simp only [List.nil_append, List.cons.injEq] at hlog
        rw [← hlog.1] at hc
        simp at hc
      | cons x pre1 =>
        simp only [List.cons_append, List.cons.injEq] at hlog
        exact ih (walker n s).2 pre1 hlog.2

/-- When every call returned false the walker was called on the whole snapshot. -/
theorem walkLoop_all_false {σ : Type} (walker : network → σ → Bool × σ)
    (l : List network) (s : σ) (h : ∀ c ∈ (walkLoop walker l s).2, c.2 = false) :
    (walkLoop walker l s).2.map Prod.fst = l := by
  induction l generalizing s with
  | nil => simp [walkLoop]
  | cons n rest ih =>
    by_cases hw : (walker n s).1 = true
    · have := h (n, true) (by simp [walkLoop, hw])
      simp at this
    · simp only [walkLoop, hw, if_false, Bool.false_eq_true, List.map_cons, List.cons.injEq,
        true_and]
      apply ih
      intro c hc
      apply h
      simp [walkLoop, hw, hc]

/-- When the walker was not called on the whole snapshot, its last call returned true. -/
theorem walkLoop_early {σ : Type} (walker : network → σ → Bool × σ)
    (l : List network) (s : σ) (h : (walkLoop walker l s).2.map Prod.fst ≠ l) :
    ∃ n, (walkLoop walker l s).2.getLast? = some (n, true) := by
  induction l generalizing s with
  | nil => simp [walkLoop] at h
  | cons n rest ih =>
    by_cases hw : (walker n s).1 = true
    · exact ⟨n, by simp [walkLoop, hw]⟩
    · simp only [walkLoop, hw, if_false, Bool.false_eq_true, List.map_cons, ne_eq,
        List.cons.injEq, true_and] at h
      obtain ⟨m, hm⟩ := ih (walker n s).2 h
      refine ⟨m, ?_⟩
      simp only [walkLoop, hw, if_false, Bool.false_eq_true]
      cases hlog : (walkLoop walker rest (walker n s).2).2 with
      | nil => simp [hlog] at hm
      | cons x xs =>
        rw [hlog] at hm
        simpa [List.getLast?_cons_cons] using hm

/-- The log of a walker without captured variables records its answers. -/
theorem walkLoop_pure_log (f : network → Bool) (l : List network) :
    ∀ c ∈ (walkLoop (fun n (u : Unit) => (f n, u)) l ()).2, c.2 = f c.1 := by
  induction l with
  | nil => simp [walkLoop]
  | cons n rest ih =>
    intro c hc
    by_cases hw : f n = true
    · simp [walkLoop, hw] at hc
      simp [hc, hw]
    · simp only [walkLoop, hw, if_false, Bool.false_eq_true, List.mem_cons] at hc
      rcases hc with rfl | hc
      · simp [hw]
      · exact ih c hc

/-- C9: `WalkNetworks` calls the walker on an initial segment of the snapshot
`Networks()`, hence on each element at most once; no call follows a call that
returned true; if every call returned false the walker was called on the whole
snapshot, and if it was not, the last call returned true. The snapshot is a
rearrangement of the values of the table, has as many elements as the table
has keys, and holds exactly the networks bound to some key. -/
theorem C9_WalkNetworks_stops_at_first_true {σ : Type} (ord : List network → List network)
    (hord : ∀ l, (ord l).Perm l) (walker : network → σ → Bool × σ) (s : σ) (w : World) :
    ((WalkNetworks ord walker s w).2.map Prod.fst <+: Networks ord w) ∧
    (∀ pre c post, (WalkNetworks ord walker s w).2 = pre ++ c :: post →
      c.2 = true → post = []) ∧
    ((∀ c ∈ (WalkNetworks ord walker s w).2, c.2 = false) →
      (WalkNetworks ord walker s w).2.map Prod.fst = Networks ord w) ∧
    ((WalkNetworks ord walker s w).2.map Prod.fst ≠ Networks ord w →
      ∃ n, (WalkNetworks ord walker s w).2.getLast? = some (n, true)) ∧
    (∀ f : network → Bool,
      ∀ c ∈ (WalkNetworks ord (fun n (u : Unit) => (f n, u)) () w).2, c.2 = f c.1) ∧
    (Networks ord w).Perm (w.c.networks.entries.map fun e => e.2) ∧
    (Networks ord w).length = w.c.networks.keys.length ∧
    (∀ n, n ∈ Networks ord w ↔ ∃ k, w.c.networks.lookup k = some n) := by
  refine ⟨walkLoop_calls_initial walker _ s, ?_, walkLoop_all_false walker _ s,
    walkLoop_early walker _ s, fun f => walkLoop_pure_log f _, hord _, ?_,
    mem_Networks_iff ord hord w⟩
  · intro pre c post hlog hc
    exact walkLoop_stops walker _ s pre c post hlog hc
  · rw [Networks, (hord _).length_eq]
    simp [AList.keys, List.keys]

/-- C9, at a concrete input: on the table holding "net1" the walker that stops
at "net1" is called once, and the snapshot has one element. -/
theorem C9_WalkNetworks_witness :
    (WalkNetworks id stopAtNet1 () net1World).2 = [(bridgeNet "net1" "id1", true)] ∧
    (Networks id net1World).length = net1World.c.networks.keys.length ∧
    ((WalkNetworks id stopAtNet1 () net1World).2.map Prod.fst <+: Networks id net1World) :=
  ⟨by decide,
   (C9_WalkNetworks_stops_at_first_true id (fun l => List.Perm.refl l) stopAtNet1 ()
      net1World).2.2.2.2.2.2.1,
   (C9_WalkNetworks_stops_at_first_true id (fun l => List.Perm.refl l) stopAtNet1 ()
      net1World).1⟩

/-- The closure of `NetworkByName` leaves the first network of the snapshot
that has the requested name in the captured variable. -/
theorem walkLoop_byName (name : String) (l : List network) :
    (walkLoop (fun (current : network) (n : Option network) =>
        if current.name = name then (true, some current) else (false, n)) l none).1 =
      l.find? (fun current => decide (current.name = name)) := by
  induction l with
  | nil => simp [walkLoop]
  | cons c rest ih =>
    by_cases h : c.name = name
    · simp [walkLoop, h]
    · simp [walkLoop, h, ih]

/-- The value returned by `NetworkByName` for a non-empty name. -/
theorem NetworkByName_eq_find (ord : List network → List network) (name : String) (w : World)
    (hname : name ≠ "") :
    NetworkByName ord name w =
      (((Networks ord w).find? (fun current => decide (current.name = name)), none), w) := by
  simp [NetworkByName, hname, WalkNetworks, walkLoop_byName]

/-- C8: `NetworkByName("")` fails with `ErrInvalidName` and `NetworkByID("")`
with `ErrInvalidID`. For a non-empty input both return no error; they return
nil when no network of the table has that name (id), and otherwise a network
of the table with that name (id). No lookup changes the controller. The table
is taken to hold every network under its own id, as every insertion of
`controller.go` does. -/
theorem C8_lookups_by_name_and_id (ord : List network → List network)
    (hord : ∀ l, (ord l).Perm l) (w : World)
    (hkey : ∀ k n, w.c.networks.lookup k = some n → n.id = k) (name id : String) :
    NetworkByName ord "" w = ((none, some Error.ErrInvalidName), w) ∧
    NetworkByID "" w = ((none, some Error.ErrInvalidID), w) ∧
    (name ≠ "" →
      (NetworkByName ord name w).1.2 = none ∧ (NetworkByName ord name w).2 = w ∧
      ((∀ k n, w.c.networks.lookup k = some n → n.name ≠ name) →
        (NetworkByName ord name w).1.1 = none) ∧
      ((∃ k n, w.c.networks.lookup k = some n ∧ n.name = name) →
        ∃ k n, (NetworkByName ord name w).1.1 = some n ∧
          w.c.networks.lookup k = some n ∧ n.name = name)) ∧
    (id ≠ "" →
      (NetworkByID id w).1.2 = none ∧ (NetworkByID id w).2 = w ∧
      ((∀ k n, w.c.networks.lookup k = some n → n.id ≠ id) →
        (NetworkByID id w).1.1 = none) ∧
      ((∃ k n, w.c.networks.lookup k = some n ∧ n.id = id) →
        ∃ k n, (NetworkByID id w).1.1 = some n ∧
          w.c.networks.lookup k = some n ∧ n.id = id)) := by
  refine ⟨by simp [NetworkByName], by simp [NetworkByID], ?_, ?_⟩
  · intro hname
    rw [NetworkByName_eq_find ord name w hname]
    refine ⟨rfl, rfl, ?_, ?_⟩
    · intro habs
      simp only [List.find?_eq_none, decide_eq_true_eq]
      intro n hn
      obtain ⟨k, hk⟩ := (mem_Networks_iff ord hord w n).mp hn
      exact habs k n hk
    · rintro ⟨k, n, hl, hn⟩
      have hmem : n ∈ Networks ord w := (mem_Networks_iff ord hord w n).mpr ⟨k, hl⟩
      cases hf : (Networks ord w).find? (fun current => decide (current.name = name)) with
      | none =>
        rw [List.find?_eq_none] at hf
        exact absurd (by simpa using hn) (hf n hmem)
      | some m =>
        have hm : m ∈ Networks ord w := List.mem_of_find?_eq_some hf
        have hp := List.find?_some hf
        obtain ⟨k2, hk2⟩ := (mem_Networks_iff ord hord w m).mp hm
        exact ⟨k2, m, rfl, hk2, by simpa using hp⟩
  · intro hid
    cases hl : w.c.networks.lookup id with
    | none =>
      refine ⟨by simp [NetworkByID, hid, hl], by simp [NetworkByID, hid, hl],
        fun _ => by simp [NetworkByID, hid, hl], ?_⟩
      rintro ⟨k, n, hk, hn⟩
      have := hkey k n hk
      rw [hn] at this
      rw [← this, hl] at hk
      cases hk
    | some m =>
      refine ⟨by simp [NetworkByID, hid, hl], by simp [NetworkByID, hid, hl], ?_, ?_⟩
      · intro habs
        exact absurd (hkey id m hl) (habs id m hl)
      · intro _
        exact ⟨id, m, by simp [NetworkByID, hid, hl], hl, hkey id m hl⟩

/-- C8, at a concrete input: on the table holding network "net1" under "id1",
both lookups return it, and a name and an id that are not in the table give nil
with no error. -/
theorem C8_lookups_witness :
    (∃ k n, (NetworkByName id "net1" net1World).1.1 = some n ∧
      net1World.c.networks.lookup k = some n ∧ n.name = "net1") ∧
    (∃ k n, (NetworkByID "id1" net1World).1.1 = some n ∧
      net1World.c.networks.lookup k = some n ∧ n.id = "id1") ∧
    (NetworkByName id "net2" net1World).1 = (none, none) ∧
    (NetworkByID "id2" net1World).1 = (none, none) :=
  have hkey : ∀ k n, net1World.c.networks.lookup k = some n → n.id = k := by
    intro k n h
    have hmem := AList.mem_lookup_iff.mp h
    simp [net1World, bridgeNet, constructNetwork, AList.insert_entries] at hmem
    obtain ⟨rfl, hn⟩ := hmem
    rw [hn]
  ⟨((C8_lookups_by_name_and_id id (fun l => List.Perm.refl l) net1World hkey "net1" "id1").2.2.1
      (by decide)).2.2.2 ⟨"id1", bridgeNet "net1" "id1", by decide, by decide⟩,
   ((C8_lookups_by_name_and_id id (fun l => List.Perm.refl l) net1World hkey "net1" "id1").2.2.2
      (by decide)).2.2.2 ⟨"id1", bridgeNet "net1" "id1", by decide, by decide⟩,
   by decide, by decide⟩

/-- The accumulator of the library join can be split off. -/
theorem intercalate_go_append (sep : String) (l : List String) (acc b : String) :
    String.intercalate.go (acc ++ b) sep l = acc ++ String.intercalate.go b sep l := by
  induction l generalizing b with
  | nil => simp [String.intercalate.go]
  | cons a rest ih =>
    simp only [String.intercalate.go]
    rw [← ih (b ++ sep ++ a)]
    simp [String.append_assoc]

/-- The model of Go `strings.Join` agrees with the library join. -/
theorem stringsJoin_eq_intercalate (l : List String) (sep : String) :
    stringsJoin l sep = sep.intercalate l := by
  cases l with
  | nil => simp [stringsJoin, String.intercalate]
  | cons a rest =>
    simp only [String.intercalate]
    induction rest generalizing a with
    | nil => simp [stringsJoin, String.intercalate.go]
    | cons b rest ih =>
      simp only [stringsJoin, String.intercalate.go]
      rw [ih b, intercalate_go_append]

/-- Joining with "/" and closing with "/" puts one "/" behind every element. -/
theorem stringsJoin_slash (a : String) (l : List String) :
    stringsJoin (a :: l) "/" ++ "/" = a ++ "/" ++ callerSegments l := by
  induction l generalizing a with
  | nil => simp [stringsJoin, callerSegments]
  | cons b rest ih =>
    simp only [stringsJoin, callerSegments]
    rw [String.append_assoc, ih b]

/-- C10: for every list of caller segments, `Key` is "docker", "libnetwork"
and the segments joined with "/", followed by one "/"; this is the wire format
`docker/libnetwork/<caller segments...>/`, so the key starts with
"docker/libnetwork/" and ends with "/", and `Key()` is "docker/libnetwork/". -/
theorem C10_Key_wire_format (key : List String) :
    Key key = "/".intercalate ("docker" :: "libnetwork" :: key) ++ "/" ∧
    Key key = wireFormat key ∧
    "docker/libnetwork/".data <+: (Key key).data ∧
    "/".data <:+ (Key key).data ∧
    Key [] = "docker/libnetwork/" := by
  have hjoin : Key key = "/".intercalate ("docker" :: "libnetwork" :: key) ++ "/" := by
    simp only [Key, List.cons_append, List.nil_append, stringsJoin_eq_intercalate]
  have hwire : Key key = wireFormat key := by
    simp only [Key, List.cons_append, List.nil_append, wireFormat]
    rw [stringsJoin_slash, callerSegments, ← String.append_assoc, ← String.append_assoc]
    rfl
  refine ⟨hjoin, hwire, ?_, ?_, by decide⟩
  · rw [hwire, wireFormat, String.data_append]
    exact List.prefix_append _ _
  · rw [hjoin, String.data_append]
    exact List.suffix_append _ _

/-- A persistence step that succeeds returns the record with a new index only,
and leaves the controller as it was. -/
theorem addNetworkToStore_success (env : Env) (n : network) (w : World)
    (h : env.IsReservedNetwork n.name = true ∨
      ∃ ds, w.c.store = some ds ∧ ∃ index, env.PutObjectAtomic ds n = .ok index) :
    ∃ n1 w1, addNetworkToStore env n w = ((none, n1), w1) ∧ w1.c = w.c ∧
      n1.name = n.name ∧ n1.id = n.id ∧ n1.generic = n.generic := by
  by_cases hres : env.IsReservedNetwork n.name = true
  · exact ⟨n, w, by simp [addNetworkToStore, hres], rfl, rfl, rfl, rfl⟩
  · rcases h with h | ⟨ds, hds, index, hput⟩
    · exact absurd h hres
    · exact ⟨{ n with dbIndex := index },
        { w with trace := w.trace ++ [Event.PutObjectAtomic ds n] },
        by simp [addNetworkToStore, hres, hds, hput], rfl, rfl, rfl, rfl⟩

/-- An accepted `NewNetwork` call with an unused name and a fresh id returns a
network with that name and id and puts it in front of the entries of the table;
drivers and store stay as they were. -/
theorem NewNetwork_success (call : NewNetworkCall) (w : World)
    (hacc : Accepted w.c.drivers w.c.store call)
    (hdup : ∀ k n, w.c.networks.lookup k = some n → n.name ≠ call.name)
    (hid : call.env.GenerateRandomID ∉ w.c.networks) :
    ∃ n, (NewNetwork call.env call.networkType call.name call.options w).1 = (some n, none) ∧
      n.name = call.name ∧ n.id = call.env.GenerateRandomID ∧
      (NewNetwork call.env call.networkType call.name call.options w).2.c.networks.entries =
        ⟨n.id, n⟩ :: w.c.networks.entries ∧
      (NewNetwork call.env call.networkType call.name call.options w).2.c.drivers = w.c.drivers ∧
      (NewNetwork call.env call.networkType call.name call.options w).2.c.store = w.c.store := by
  obtain ⟨hname, _, d, hd, hcreate, hpersist⟩ := hacc
  have hany : w.c.networks.entries.any (fun e => decide (e.2.name = call.name)) = false := by
    cases h : w.c.networks.entries.any (fun e => decide (e.2.name = call.name)) with
    | false => rfl
    | true =>
      obtain ⟨k, n, hl, hn⟩ := (any_name_iff w.c.networks call.name).mp h
      exact absurd hn (hdup k n hl)
  obtain ⟨n1, w1, hstore, hc, hn1, hi1, _⟩ := addNetworkToStore_success call.env
    (processOptions call.options (constructNetwork w.c call.name call.env.GenerateRandomID d)) w
    (by
      rcases hpersist with h | ⟨ds, hds, hput⟩
      · exact Or.inl h
      · exact Or.inr ⟨ds, hds, hput _⟩)
  have hi2 : n1.id = call.env.GenerateRandomID := hi1
  have hcr : call.env.CreateNetwork d n1.id n1.generic = none := by
    rw [hi2]
    exact hcreate _
  refine ⟨n1, ?_, hn1, hi2, ?_, ?_, ?_⟩
  · simp [NewNetwork, hname, hd, hany, hstore, hcr]
  · have hnot : n1.id ∉ w.c.networks := by
      rw [hi2]
      exact hid
    have hw : (NewNetwork call.env call.networkType call.name call.options w).2.c.networks =
        w.c.networks.insert n1.id n1 := by
      simp [NewNetwork, hname, hd, hany, hstore, hcr, hc]
    rw [hw, AList.insert_entries_of_neg hnot]
  · simp [NewNetwork, hname, hd, hany, hstore, hcr, hc]
  · simp [NewNetwork, hname, hd, hany, hstore, hcr, hc]

/-- A sequence of accepted calls with distinct names and ids, none of them in
the table yet, succeeds call by call; the created networks are put in front of
the entries of the table, the last one first. -/
theorem runNewNetworks_success (calls : List NewNetworkCall) (w : World)
    (hacc : ∀ call ∈ calls, Accepted w.c.drivers w.c.store call)
    (hnames : (calls.map fun call => call.name).Nodup)
    (hids : (calls.map fun call => call.env.GenerateRandomID).Nodup)
    (hdup : ∀ call ∈ calls, ∀ k n, w.c.networks.lookup k = some n → n.name ≠ call.name)
    (hfresh : ∀ call ∈ calls, call.env.GenerateRandomID ∉ w.c.networks) :
    ∃ ns : List network,
      (runNewNetworks calls w).1 = ns.map (fun n => (some n, none)) ∧
      ns.map (fun n => n.name) = calls.map (fun call => call.name) ∧
      ns.map (fun n => n.id) = calls.map (fun call => call.env.GenerateRandomID) ∧
      (runNewNetworks calls w).2.c.networks.entries =
        ns.reverse.map (fun n => (⟨n.id, n⟩ : Sigma fun _ : UUID => network)) ++
          w.c.networks.entries := by
  induction calls generalizing w with
  | nil => exact ⟨[], by simp [runNewNetworks]⟩
  | cons call rest ih =>
    obtain ⟨n, hres, hn, hi, hent, hdrv, hst⟩ := NewNetwork_success call w
      (hacc call (List.mem_cons_self _ _)) (hdup call (List.mem_cons_self _ _))
      (hfresh call (List.mem_cons_self _ _))
    simp only [List.map_cons, List.nodup_cons, List.mem_map, not_exists, not_and] at hnames hids
    have hmem : ∀ k m,
        (NewNetwork call.env call.networkType call.name call.options w).2.c.networks.lookup k
          = some m → (k = n.id ∧ m = n) ∨ w.c.networks.lookup k = some m := by
      intro k m hl
      have h1 := AList.mem_lookup_iff.mp hl
      rw [hent, List.mem_cons] at h1
      rcases h1 with h1 | h1
      · left
        cases h1
        exact ⟨rfl, rfl⟩
      · exact Or.inr (AList.mem_lookup_iff.mpr h1)
    obtain ⟨ns, hrs, hnn, hni, hents⟩ := ih
      (NewNetwork call.env call.networkType call.name call.options w).2
      (by
        intro c hc
        rw [hdrv, hst]
        exact hacc c (List.mem_cons_of_mem _ hc))
      hnames.2 hids.2
      (by
        intro c hc k m hl
        rcases hmem k m hl with ⟨_, rfl⟩ | hl
        · rw [hn]
          exact fun h => hnames.1 c hc h.symm
        · exact hdup c (List.mem_cons_of_mem _ hc) k m hl)
      (by
        intro c hc hin
        obtain ⟨m, hm⟩ := Option.isSome_iff_exists.mp (AList.lookup_isSome.mpr hin)
        rcases hmem _ m hm with ⟨hk, _⟩ | hl
        · rw [hi] at hk
          exact hids.1 c hc hk
        · exact hfresh c (List.mem_cons_of_mem _ hc)
            (AList.lookup_isSome.mp (by rw [hl]; rfl)))
    refine ⟨n :: ns, ?_, ?_, ?_, ?_⟩
    · simp [runNewNetworks, hres, hrs]
    · simp [hn, hnn]
    · simp [hi, hni]
    · simp only [runNewNetworks]
      rw [hents, hent]
      simp

/-- In a list of networks with distinct names the search by name finds the
network itself. -/
theorem find_by_name (l : List network) (n : network)
    (hnodup : (l.map fun m => m.name).Nodup) (hn : n ∈ l) :
    l.find? (fun current => decide (current.name = n.name)) = some n := by
  induction l with
  | nil => cases hn
  | cons m rest ih =>
    simp only [List.map_cons, List.nodup_cons, List.mem_map, not_exists, not_and] at hnodup
    rcases List.mem_cons.mp hn with rfl | hmem
    · simp
    · have hne : m.name ≠ n.name := fun h => hnodup.1 n hmem h.symm
      simp [List.find?_cons, hne, ih hnodup.2 hmem]

/-- C4: on a controller with an empty networks table, a sequence of `NewNetwork`
calls with pairwise distinct non-empty names, each for a registered type, whose
driver and persistence steps succeed and whose generated ids are pairwise
distinct (and, as ids are, not empty) succeeds call by call: the results are
networks `ns` carrying the requested names and the generated ids, in the order
of the calls; afterwards `NetworkByName`
of its name and `NetworkByID` of its id return each of them with no error, and
`Networks()` is a rearrangement of `ns`. -/
theorem C4_distinct_names_all_retrievable (ord : List network → List network)
    (hord : ∀ l, (ord l).Perm l) (calls : List NewNetworkCall) (w : World)
    (hempty : w.c.networks = ∅)
    (hacc : ∀ call ∈ calls, Accepted w.c.drivers w.c.store call)
    (hnames : (calls.map fun call => call.name).Nodup)
    (hids : (calls.map fun call => call.env.GenerateRandomID).Nodup) :
    ∃ ns : List network,
      (runNewNetworks calls w).1 = ns.map (fun n => (some n, none)) ∧
      ns.map (fun n => n.name) = calls.map (fun call => call.name) ∧
      ns.map (fun n => n.id) = calls.map (fun call => call.env.GenerateRandomID) ∧
      (∀ n ∈ ns,
        NetworkByName ord n.name (runNewNetworks calls w).2 =
          ((some n, none), (runNewNetworks calls w).2) ∧
        NetworkByID n.id (runNewNetworks calls w).2 =
          ((some n, none), (runNewNetworks calls w).2)) ∧
      (Networks ord (runNewNetworks calls w).2).Perm ns := by
  obtain ⟨ns, hres, hnn, hni, hent⟩ := runNewNetworks_success calls w hacc hnames hids
    (by
      intro call _ k n hl
      rw [hempty] at hl
      simp at hl)
    (by
      intro call _
      rw [hempty]
      exact AList.not_mem_empty _)
  rw [hempty, AList.empty_entries, List.append_nil] at hent
  have hvals : (runNewNetworks calls w).2.c.networks.entries.map (fun e => e.2) = ns.reverse := by
    rw [hent, List.map_map]
    exact List.map_id _
  have hperm : (Networks ord (runNewNetworks calls w).2).Perm ns := by
    unfold Networks
    rw [hvals]
    exact (hord _).trans (List.reverse_perm ns)
  refine ⟨ns, hres, hnn, hni, ?_, hperm⟩
  intro n hn
  have hname : n.name ≠ "" := by
    have h1 : n.name ∈ calls.map (fun call => call.name) := by
      rw [← hnn]
      exact List.mem_map_of_mem _ hn
    obtain ⟨call, hcall, hc⟩ := List.mem_map.mp h1
    rw [← hc]
    exact (hacc call hcall).1
  have hid : n.id ≠ "" := by
    have h1 : n.id ∈ calls.map (fun call => call.env.GenerateRandomID) := by
      rw [← hni]
      exact List.mem_map_of_mem _ hn
    obtain ⟨call, hcall, hc⟩ := List.mem_map.mp h1
    rw [← hc]
    exact (hacc call hcall).2.1
  constructor
  · rw [NetworkByName_eq_find ord n.name _ hname]
    have hnd : ((Networks ord (runNewNetworks calls w).2).map fun m => m.name).Nodup := by
      rw [(hperm.map _).nodup_iff, hnn]
      exact hnames
    rw [find_by_name _ n hnd (hperm.mem_iff.mpr hn)]
  · have hl : (runNewNetworks calls w).2.c.networks.lookup n.id = some n := by
      apply AList.mem_lookup_iff.mpr
      rw [hent]
      exact List.mem_map_of_mem _ (List.mem_reverse.mpr hn)
    simp [NetworkByID, hid, hl]

/-- C4, at a concrete input: "net1" and "net2" are created one after the other
on the controller with driver "bridge" and a store. -/
theorem C4_distinct_names_witness :
    ∃ ns : List network,
      (runNewNetworks twoCalls bridgeStoreWorld).1 = ns.map (fun n => (some n, none)) ∧
      ns.map (fun n => n.name) = twoCalls.map (fun call => call.name) ∧
      ns.map (fun n => n.id) = twoCalls.map (fun call => call.env.GenerateRandomID) ∧
      (∀ n ∈ ns,
        NetworkByName id n.name (runNewNetworks twoCalls bridgeStoreWorld).2 =
          ((some n, none), (runNewNetworks twoCalls bridgeStoreWorld).2) ∧
        NetworkByID n.id (runNewNetworks twoCalls bridgeStoreWorld).2 =
          ((some n, none), (runNewNetworks twoCalls bridgeStoreWorld).2)) ∧
      (Networks id (runNewNetworks twoCalls bridgeStoreWorld).2).Perm ns :=
  C4_distinct_names_all_retrievable id (fun l => List.Perm.refl l) twoCalls bridgeStoreWorld rfl
    (by
      intro call hcall
      simp only [twoCalls, List.mem_cons, List.mem_singleton, List.not_mem_nil, or_false]
        at hcall
      rcases hcall with rfl | rfl
      · exact ⟨by decide, by decide, 1, by decide, fun _ => rfl,
          Or.inr ⟨5, rfl, fun _ => ⟨1, rfl⟩⟩⟩
      · exact ⟨by decide, by decide, 1, by decide, fun _ => rfl,
          Or.inr ⟨5, rfl, fun _ => ⟨1, rfl⟩⟩⟩)
    (by decide) (by decide)

/-- The table after `NewNetwork` is the table before, or the table before with
one network inserted under its own id. -/
theorem NewNetwork_table (env : Env) (networkType name : String) (options : List NetworkOption)
    (w : World) :
    (NewNetwork env networkType name options w).2.c.networks = w.c.networks ∨
    ∃ n, (NewNetwork env networkType name options w).2.c.networks =
      w.c.networks.insert n.id n := by
  by_cases hname : name = ""
  · exact Or.inl (by simp [NewNetwork, hname])
  · cases hd : w.c.drivers.lookup networkType with
    | none => exact Or.inl (by simp [NewNetwork, hname, hd])
    | some d =>
      cases hany : w.c.networks.entries.any (fun e => decide (e.2.name = name)) with
      | true => exact Or.inl (by simp [NewNetwork, hname, hd, hany])
      | false =>
        have hc := (addNetworkToStore_effect env
          (processOptions options (constructNetwork w.c name env.GenerateRandomID d)) w).1
        rcases heq : addNetworkToStore env
          (processOptions options (constructNetwork w.c name env.GenerateRandomID d)) w
          with ⟨⟨e, n2⟩, w1⟩
        rw [heq] at hc
        simp only at hc
        cases e with
        | some err => exact Or.inl (by simp [NewNetwork, hname, hd, hany, heq, hc])
        | none =>
          cases hcr : env.CreateNetwork d n2.id n2.generic with
          | some err => exact Or.inl (by simp [NewNetwork, hname, hd, hany, heq, hcr, hc])
          | none => exact Or.inr ⟨n2, by simp [NewNetwork, hname, hd, hany, heq, hcr, hc]⟩

/-- The method `NewNetwork` keeps every network of the table stored under its own id. -/
theorem NewNetwork_keeps_own_id (env : Env) (networkType name : String)
    (options : List NetworkOption) (w : World)
    (hkey : ∀ k n, w.c.networks.lookup k = some n → n.id = k) :
    ∀ k n, (NewNetwork env networkType name options w).2.c.networks.lookup k = some n →
      n.id = k := by
  intro k n hl
  rcases NewNetwork_table env networkType name options w with h | ⟨m, h⟩
  · rw [h] at hl
    exact hkey k n hl
  · rw [h] at hl
    by_cases hk : k = m.id
    · subst hk
      rw [AList.lookup_insert] at hl
      cases hl
      rfl
    · rw [AList.lookup_insert_ne hk] at hl
      exact hkey k n hl

/-- C11: `PutObjectAtomic` on an object without byte value fails with
`ErrInvalidAtomicRequest`, issues no store operation and leaves the object as it
is. Otherwise its first operation is the compare-and-swap write at
`Key(obj.Key()...)` with the value and the index of the object; if the write
fails that error is returned and the object is unchanged; if the write and the
re-read succeed no error is returned and the index of the object is the index
the store reported for the key. A failed re-read returns its error and leaves
the object unchanged. -/
theorem C11_PutObjectAtomic (store : datastore.StoreEnv) (obj : datastore.KV) :
    (obj.Value = none →
      datastore.PutObjectAtomic store (some obj) =
        ((some Error.ErrInvalidAtomicRequest, some obj), [])) ∧
    (∀ value, obj.Value = some value →
      (datastore.PutObjectAtomic store (some obj)).2.head? =
        some (datastore.StoreCall.AtomicPut (Key obj.Key) [] value obj.Index) ∧
      (∀ err, store.AtomicPut (Key obj.Key) [] value obj.Index = .error err →
        datastore.PutObjectAtomic store (some obj) =
          ((some err, some obj),
            [datastore.StoreCall.AtomicPut (Key obj.Key) [] value obj.Index])) ∧
      (∀ ok, store.AtomicPut (Key obj.Key) [] value obj.Index = .ok ok →
        (∀ bytes index, store.Get (Key obj.Key) = .ok (bytes, index) →
          datastore.PutObjectAtomic store (some obj) =
            ((none, some { obj with Index := index }),
              [datastore.StoreCall.AtomicPut (Key obj.Key) [] value obj.Index,
               datastore.StoreCall.Get (Key obj.Key)])) ∧
        (∀ err, store.Get (Key obj.Key) = .error err →
          datastore.PutObjectAtomic store (some obj) =
            ((some err, some obj),
              [datastore.StoreCall.AtomicPut (Key obj.Key) [] value obj.Index,
               datastore.StoreCall.Get (Key obj.Key)])))) := by
  refine ⟨?_, ?_⟩
  · intro h
    simp [datastore.PutObjectAtomic, h]
  · intro value h
    refine ⟨?_, ?_, ?_⟩
    · simp only [datastore.PutObjectAtomic, h]
      cases store.AtomicPut (Key obj.Key) [] value obj.Index with
      | error err => rfl
      | ok b =>
        cases store.Get (Key obj.Key) with
        | error err => rfl
        | ok r => rfl
    · intro err herr
      simp [datastore.PutObjectAtomic, h, herr]
    · intro b hb
      refine ⟨?_, ?_⟩
      · intro bytes index hget
        simp [datastore.PutObjectAtomic, h, hb, hget, datastore.KV.SetIndex]
      · intro err hget
        simp [datastore.PutObjectAtomic, h, hb, hget]

/-- C11, at concrete inputs: a record without value, a refused write, and an
accepted write after which the record carries the index 8 of the store. -/
theorem C11_PutObjectAtomic_witness :
    datastore.PutObjectAtomic datastore.acceptingStore
        (some { datastore.sampleRecord with Value := none }) =
      ((some Error.ErrInvalidAtomicRequest,
        some { datastore.sampleRecord with Value := none }), []) ∧
    datastore.PutObjectAtomic datastore.conflictStore (some datastore.sampleRecord) =
      ((some (Error.external "Key modified"), some datastore.sampleRecord),
        [datastore.StoreCall.AtomicPut "docker/libnetwork/network/id1/" [] [1] 3]) ∧
    datastore.PutObjectAtomic datastore.acceptingStore (some datastore.sampleRecord) =
      ((none, some { datastore.sampleRecord with Index := 8 }),
        [datastore.StoreCall.AtomicPut "docker/libnetwork/network/id1/" [] [1] 3,
         datastore.StoreCall.Get "docker/libnetwork/network/id1/"]) :=
  ⟨(C11_PutObjectAtomic datastore.acceptingStore
      { datastore.sampleRecord with Value := none }).1 rfl,
   ((C11_PutObjectAtomic datastore.conflictStore datastore.sampleRecord).2 [1] rfl).2.1
      (Error.external "Key modified") rfl,
   (((C11_PutObjectAtomic datastore.acceptingStore datastore.sampleRecord).2 [1] rfl).2.2
      true rfl).1 [1] 8 rfl⟩

/-- The elements of a set built by `Add` are the start elements and the added ones. -/
theorem mem_foldl_setAdd {IP : Type} (f : IP → String) (l : List IP) (init : List String)
    (x : String) :
    x ∈ l.foldl (fun set ip => hostdiscovery.setAdd set (f ip)) init ↔
      x ∈ init ∨ x ∈ l.map f := by
  induction l generalizing init with
  | nil => simp
  | cons a rest ih =>
    rw [List.foldl_cons, ih]
    have hadd : x ∈ hostdiscovery.setAdd init (f a) ↔ x ∈ init ∨ x = f a := by
      unfold hostdiscovery.setAdd
      by_cases h : f a ∈ init
      · simp only [h, if_true]
        constructor
        · exact fun hx => Or.inl hx
        · rintro (hx | hx)
          · exact hx
          · rw [hx]
            exact h
      · simp [h]
    rw [hadd, List.map_cons, List.mem_cons]
    tauto

/-- A set built by `Add` has no repetition. -/
theorem nodup_foldl_setAdd {IP : Type} (f : IP → String) (l : List IP) (init : List String)
    (hinit : init.Nodup) :
    (l.foldl (fun set ip => hostdiscovery.setAdd set (f ip)) init).Nodup := by
  induction l generalizing init with
  | nil => simpa using hinit
  | cons a rest ih =>
    simp only [List.foldl_cons]
    apply ih
    unfold hostdiscovery.setAdd
    by_cases h : f a ∈ init
    · simpa [h] using hinit
    · simp only [h, if_false]
      rw [List.nodup_append]
      refine ⟨hinit, List.nodup_singleton _, ?_⟩
      intro y hy hy2
      rw [List.mem_singleton] at hy2
      exact h (hy2 ▸ hy)

/-- The elements of `Difference`. -/
theorem mem_Difference (set other : List String) (x : String) :
    x ∈ hostdiscovery.Difference set other ↔ x ∈ set ∧ x ∉ other := by
  simp [hostdiscovery.Difference]

/-- The strings that `diff` turns into added addresses are the texts of
`updated` that are not texts of `existing`, each once. -/
theorem diff_slice {IP : Type} (net : hostdiscovery.NetPkg IP) (ord : List String → List String)
    (hord : ∀ l, (ord l).Perm l) (a b : List IP) :
    (∀ x, x ∈ ord (hostdiscovery.Difference
        (a.foldl (fun set ip => hostdiscovery.setAdd set (net.ipString ip)) [])
        (b.foldl (fun set ip => hostdiscovery.setAdd set (net.ipString ip)) [])) ↔
      x ∈ a.map net.ipString ∧ x ∉ b.map net.ipString) ∧
    (ord (hostdiscovery.Difference
        (a.foldl (fun set ip => hostdiscovery.setAdd set (net.ipString ip)) [])
        (b.foldl (fun set ip => hostdiscovery.setAdd set (net.ipString ip)) []))).Nodup := by
  constructor
  · intro x
    rw [(hord _).mem_iff, mem_Difference, mem_foldl_setAdd, mem_foldl_setAdd]
    simp
  · rw [(hord _).nodup_iff]
    exact (nodup_foldl_setAdd net.ipString a [] List.nodup_nil).filter _

/-- Parsing the texts of valid addresses and printing them again gives the texts back. -/
theorem map_print_parse {IP : Type} (net : hostdiscovery.NetPkg IP) (a : List IP)
    (hvalid : ∀ ip ∈ a, net.ipString (net.ParseIP (net.ipString ip)) = net.ipString ip)
    (slice : List String) (hsub : ∀ x ∈ slice, x ∈ a.map net.ipString) :
    (slice.map net.ParseIP).map net.ipString = slice := by
  rw [List.map_map]
  conv_rhs => rw [← List.map_id slice]
  apply List.map_congr_left
  intro x hx
  obtain ⟨ip, hip, rfl⟩ := List.mem_map.mp (hsub x hx)
  exact hvalid ip hip

/-- C12: for lists of valid addresses (printing, parsing and printing again
gives the same text), the texts of the added addresses are exactly the texts of
`updated` that are not texts of `existing`, those of the removed addresses
exactly the texts of `existing` that are not texts of `updated`; neither result
has a repetition, no address is in both, and when the two lists have the same
texts both results are empty. -/
theorem C12_diff_is_set_difference {IP : Type} (net : hostdiscovery.NetPkg IP)
    (ord : List String → List String) (hord : ∀ l, (ord l).Perm l)
    (existing updated : List IP)
    (hvalid : ∀ ip ∈ existing ++ updated,
      net.ipString (net.ParseIP (net.ipString ip)) = net.ipString ip) :
    (∀ x, x ∈ (hostdiscovery.diff net ord existing updated).1.map net.ipString ↔
      x ∈ updated.map net.ipString ∧ x ∉ existing.map net.ipString) ∧
    (∀ x, x ∈ (hostdiscovery.diff net ord existing updated).2.map net.ipString ↔
      x ∈ existing.map net.ipString ∧ x ∉ updated.map net.ipString) ∧
    ((hostdiscovery.diff net ord existing updated).1.map net.ipString).Nodup ∧
    ((hostdiscovery.diff net ord existing updated).2.map net.ipString).Nodup ∧
    (hostdiscovery.diff net ord existing updated).1.Nodup ∧
    (hostdiscovery.diff net ord existing updated).2.Nodup ∧
    (∀ ip ∈ (hostdiscovery.diff net ord existing updated).1,
      ip ∉ (hostdiscovery.diff net ord existing updated).2) ∧
    ((∀ x, x ∈ updated.map net.ipString ↔ x ∈ existing.map net.ipString) →
      hostdiscovery.diff net ord existing updated = ([], [])) := by
  obtain ⟨hamem, hanodup⟩ := diff_slice net ord hord updated existing
  obtain ⟨hrmem, hrnodup⟩ := diff_slice net ord hord existing updated
  have hva : ∀ ip ∈ updated,
      net.ipString (net.ParseIP (net.ipString ip)) = net.ipString ip :=
    fun ip hip => hvalid ip (List.mem_append_right _ hip)
  have hve : ∀ ip ∈ existing,
      net.ipString (net.ParseIP (net.ipString ip)) = net.ipString ip :=
    fun ip hip => hvalid ip (List.mem_append_left _ hip)
  have hadd : (hostdiscovery.diff net ord existing updated).1.map net.ipString =
      ord (hostdiscovery.Difference
        (updated.foldl (fun set ip => hostdiscovery.setAdd set (net.ipString ip)) [])
        (existing.foldl (fun set ip => hostdiscovery.setAdd set (net.ipString ip)) [])) :=
    map_print_parse net updated hva _ (fun x hx => ((hamem x).mp hx).1)
  have hrem : (hostdiscovery.diff net ord existing updated).2.map net.ipString =
      ord (hostdiscovery.Difference
        (existing.foldl (fun set ip => hostdiscovery.setAdd set (net.ipString ip)) [])
        (updated.foldl (fun set ip => hostdiscovery.setAdd set (net.ipString ip)) [])) :=
    map_print_parse net existing hve _ (fun x hx => ((hrmem x).mp hx).1)
  have h1 : ∀ x, x ∈ (hostdiscovery.diff net ord existing updated).1.map net.ipString ↔
      x ∈ updated.map net.ipString ∧ x ∉ existing.map net.ipString := by
    intro x
    rw [hadd]
    exact hamem x
  have h2 : ∀ x, x ∈ (hostdiscovery.diff net ord existing updated).2.map net.ipString ↔
      x ∈ existing.map net.ipString ∧ x ∉ updated.map net.ipString := by
    intro x
    rw [hrem]
    exact hrmem x
  have h3 : ((hostdiscovery.diff net ord existing updated).1.map net.ipString).Nodup := by
    rw [hadd]
    exact hanodup
  have h4 : ((hostdiscovery.diff net ord existing updated).2.map net.ipString).Nodup := by
    rw [hrem]
    exact hrnodup
  refine ⟨h1, h2, h3, h4, h3.of_map _, h4.of_map _, ?_, ?_⟩
  · intro ip hin hin2
    have ha := (h1 _).mp (List.mem_map_of_mem net.ipString hin)
    have hr := (h2 _).mp (List.mem_map_of_mem net.ipString hin2)
    exact ha.2 hr.1
  · intro hsame
    have he1 : (hostdiscovery.diff net ord existing updated).1 = [] := by
      apply List.eq_nil_iff_forall_not_mem.mpr
      intro ip hin
      have ha := (h1 _).mp (List.mem_map_of_mem net.ipString hin)
      exact ha.2 ((hsame _).mp ha.1)
    have he2 : (hostdiscovery.diff net ord existing updated).2 = [] := by
      apply List.eq_nil_iff_forall_not_mem.mpr
      intro ip hin
      have hr := (h2 _).mp (List.mem_map_of_mem net.ipString hin)
      exact hr.2 ((hsame _).mpr hr.1)
    exact Prod.ext he1 he2

/-- C12, at a concrete input: existing {10.0.0.1, 10.0.0.2} and updated
{10.0.0.2, 10.0.0.3} give added {10.0.0.3} and removed {10.0.0.1}, and no
address is in both results. -/
theorem C12_diff_witness :
    hostdiscovery.diff hostdiscovery.textNet id ["10.0.0.1", "10.0.0.2"]
        ["10.0.0.2", "10.0.0.3"] = (["10.0.0.3"], ["10.0.0.1"]) ∧
    (∀ ip ∈ (hostdiscovery.diff hostdiscovery.textNet id ["10.0.0.1", "10.0.0.2"]
        ["10.0.0.2", "10.0.0.3"]).1,
      ip ∉ (hostdiscovery.diff hostdiscovery.textNet id ["10.0.0.1", "10.0.0.2"]
        ["10.0.0.2", "10.0.0.3"]).2) ∧
    hostdiscovery.diff hostdiscovery.textNet id ["10.0.0.1", "10.0.0.2"]
        ["10.0.0.2", "10.0.0.1"] = ([], []) :=
  ⟨by decide,
   (C12_diff_is_set_difference hostdiscovery.textNet id (fun l => List.Perm.refl l)
      ["10.0.0.1", "10.0.0.2"] ["10.0.0.2", "10.0.0.3"] (fun _ _ => rfl)).2.2.2.2.2.2.1,
   (C12_diff_is_set_difference hostdiscovery.textNet id (fun l => List.Perm.refl l)
      ["10.0.0.1", "10.0.0.2"] ["10.0.0.2", "10.0.0.1"] (fun _ _ => rfl)).2.2.2.2.2.2.2
      (by
        intro x
        simp only [hostdiscovery.textNet, List.map_cons, List.map_nil, List.mem_cons,
          List.mem_singleton, List.not_mem_nil, or_false]
        exact or_comm)⟩

/-- The method `processCallback` leaves the object, and so `nodes`, as it was. -/
theorem processCallback_keeps_object {IP : Type} (net : hostdiscovery.NetPkg IP)
    (ord : List String → List String) (h : hostdiscovery.hostDiscovery IP)
    (entries : List Entry) :
    (hostdiscovery.processCallback net ord h entries).1 = h :=
  rfl

/-- With no nodes recorded, `processCallback` never calls `leaveCallback`. -/
theorem processCallback_never_leaves {IP : Type} (net : hostdiscovery.NetPkg IP)
    (ord : List String → List String) (hord : ∀ l, (ord l).Perm l)
    (h : hostdiscovery.hostDiscovery IP) (hnodes : h.nodes = []) (entries : List Entry)
    (removed : List IP) :
    Callback.leaveCallback removed ∉ (hostdiscovery.processCallback net ord h entries).2 := by
  have hr : (hostdiscovery.diff net ord h.nodes (hostdiscovery.hosts net entries)).2 = [] := by
    simp only [hostdiscovery.diff, hnodes, List.foldl_nil, hostdiscovery.Difference,
      List.filter_nil, List.map_eq_nil_iff]
    exact (hord []).eq_nil
  simp only [hostdiscovery.processCallback, hr, List.length_nil, gt_iff_lt, lt_self_iff_false,
    if_false, List.append_nil]
  split <;> simp

/-- C13 (evaluation at the failing input): after the snapshot {10.0.0.1,
10.0.0.2} has been processed the object still records no nodes, so the same
snapshot delivered again calls `joinCallback` with both hosts again, and the
snapshot {10.0.0.2, 10.0.0.3} delivered next calls `joinCallback` with both of
its hosts and never `leaveCallback`. The `processCallback` of `discovery.go`
calls nothing at all. -/
theorem C13_deltas_against_empty_membership :
    hostdiscovery.processCallback hostdiscovery.textNet id hostdiscovery.NewHostDiscovery
        hostdiscovery.snapshotAB =
      (hostdiscovery.NewHostDiscovery, [Callback.joinCallback ["10.0.0.1", "10.0.0.2"]]) ∧
    (hostdiscovery.processCallback hostdiscovery.textNet id
        (hostdiscovery.processCallback hostdiscovery.textNet id hostdiscovery.NewHostDiscovery
          hostdiscovery.snapshotAB).1 hostdiscovery.snapshotAB).2 =
      [Callback.joinCallback ["10.0.0.1", "10.0.0.2"]] ∧
    (hostdiscovery.processCallback hostdiscovery.textNet id
        (hostdiscovery.processCallback hostdiscovery.textNet id hostdiscovery.NewHostDiscovery
          hostdiscovery.snapshotAB).1 hostdiscovery.snapshotBC).2 =
      [Callback.joinCallback ["10.0.0.2", "10.0.0.3"]] ∧
    processCallback hostdiscovery.snapshotBC = [] := by
  decide

/-- C14 (evaluation at the failing input): on a fresh host-discovery object of
package hostdiscovery the first `StopDiscovery` closes the channel and returns
nil, and the second one panics on closing the closed channel. The
`StopDiscovery` of `discovery.go` returns nil and leaves its object as it is,
so there every further call returns nil as well. -/
theorem C14_second_StopDiscovery_panics :
    hostdiscovery.StopDiscovery (hostdiscovery.NewHostDiscovery : hostdiscovery.hostDiscovery String) =
      Outcome.returned (none, { discovery := none, nodes := [], stopChanClosed := true }) ∧
    hostdiscovery.StopDiscovery
        ({ discovery := none, nodes := [], stopChanClosed := true } :
          hostdiscovery.hostDiscovery String) =
      Outcome.panic "close of closed channel" ∧
    StopDiscovery NewHostDiscovery = Outcome.returned (none, NewHostDiscovery) := by
  decide

/-- The callback processes the entries one after the other. -/
theorem watchCallback_append (decode : List Nat → Option network) (pre post : List KVEntry)
    (w : World) :
    watchCallback decode (pre ++ post) w = watchCallback decode post (watchCallback decode pre w) := by
  induction pre generalizing w with
  | nil => rfl
  | cons e rest ih => simp [watchCallback, ih]

/-- What `newNetworkFromStore` does to the controller: the record, bound to the
controller and to the registered driver of its type, is stored under its id,
and nothing else changes. -/
theorem newNetworkFromStore_effect (n : network) (w : World) :
    (newNetworkFromStore n w).c.networks.lookup n.id =
      some { n with ctrlr := some w.c.addr, driver := w.c.drivers.lookup n.networkType } ∧
    (∀ k, k ≠ n.id → (newNetworkFromStore n w).c.networks.lookup k = w.c.networks.lookup k) ∧
    (newNetworkFromStore n w).c.drivers = w.c.drivers ∧
    (newNetworkFromStore n w).c.sandboxes = w.c.sandboxes ∧
    (newNetworkFromStore n w).c.store = w.c.store ∧
    (newNetworkFromStore n w).trace = w.trace := by
  refine ⟨?_, ?_, rfl, rfl, rfl, rfl⟩
  · simp [newNetworkFromStore, AList.lookup_insert]
  · intro k hk
    simp [newNetworkFromStore, AList.lookup_insert_ne hk]

/-- The callback is the left fold of the loop body over the entries. -/
theorem watchCallback_eq_foldl (decode : List Nat → Option network) (entries : List KVEntry)
    (w : World) :
    watchCallback decode entries w =
      entries.foldl (fun w1 e => watchEntry decode e w1) w := by
  induction entries generalizing w with
  | nil => rfl
  | cons e rest ih => simp [watchCallback, ih]

/-- Entries that do not decode leave the world as it is. -/
theorem watchCallback_undecoded (decode : List Nat → Option network) (entries : List KVEntry)
    (w : World) (h : ∀ e ∈ entries, decode e.Value = none) :
    watchCallback decode entries w = w := by
  induction entries generalizing w with
  | nil => rfl
  | cons e rest ih =>
    have he : watchEntry decode e w = w := by
      simp [watchEntry, h e (List.mem_cons_self _ _)]
    simp only [watchCallback, he]
    exact ih w (fun e1 h1 => h e1 (List.mem_cons_of_mem _ h1))

/-- C15: the callback of the watch runs the loop body `watchEntry` on every
entry of a notification, in order. An entry whose value does not decode leaves
the world as it is, also in the middle of a notification: the remaining entries
are processed as if it were not there. For an entry that decodes to a record
with id `i`, carrying index `v`: if the table holds an entry for `i` with
`dbIndex` `v`, the world is unchanged; otherwise the table afterwards maps `i`
to the decoded record with `dbIndex` `v`, bound to this controller and to the
driver registered for its type (nil when there is none), every other key is
bound as before, and drivers, sandboxes, store and trace are unchanged. A
notification in which this entry is the only one that decodes has exactly the
effect of the entry. -/
theorem C15_watch_reconciliation (decode : List Nat → Option network) (entry : KVEntry)
    (w : World) :
    (∀ entries, watchCallback decode entries w =
      entries.foldl (fun w1 e => watchEntry decode e w1) w) ∧
    (∀ rest, watchCallback decode (entry :: rest) w =
      watchCallback decode rest (watchEntry decode entry w)) ∧
    (∀ pre post, (∀ e ∈ pre, decode e.Value = none) → (∀ e ∈ post, decode e.Value = none) →
      watchCallback decode (pre ++ entry :: post) w = watchEntry decode entry w) ∧
    (decode entry.Value = none →
      watchEntry decode entry w = w ∧
      ∀ pre post, watchCallback decode (pre ++ entry :: post) w =
        watchCallback decode (pre ++ post) w) ∧
    (∀ n, decode entry.Value = some n →
      ((∃ existing, w.c.networks.lookup n.id = some existing ∧
          existing.dbIndex = entry.LastIndex) →
        watchEntry decode entry w = w) ∧
      ((∀ existing, w.c.networks.lookup n.id = some existing →
          existing.dbIndex ≠ entry.LastIndex) →
        (watchEntry decode entry w).c.networks.lookup n.id =
          some { n with dbIndex := entry.LastIndex, ctrlr := some w.c.addr,
                        driver := w.c.drivers.lookup n.networkType } ∧
        (∀ k, k ≠ n.id →
          (watchEntry decode entry w).c.networks.lookup k = w.c.networks.lookup k) ∧
        (watchEntry decode entry w).c.drivers = w.c.drivers ∧
        (watchEntry decode entry w).c.sandboxes = w.c.sandboxes ∧
        (watchEntry decode entry w).c.store = w.c.store ∧
        (watchEntry decode entry w).trace = w.trace)) := by
  refine ⟨fun entries => watchCallback_eq_foldl decode entries w, fun rest => rfl, ?_, ?_, ?_⟩
  · intro pre post hpre hpost
    rw [watchCallback_append, watchCallback_undecoded decode pre w hpre]
    simp only [watchCallback]
    exact watchCallback_undecoded decode post _ hpost
  · intro hdec
    have hskip : ∀ w1, watchEntry decode entry w1 = w1 := by
      intro w1
      simp [watchEntry, hdec]
    refine ⟨hskip w, ?_⟩
    intro pre post
    rw [watchCallback_append, watchCallback_append]
    simp [watchCallback, hskip]
  · intro n hdec
    refine ⟨?_, ?_⟩
    · rintro ⟨existing, hl, hidx⟩
      simp [watchEntry, hdec, hl, hidx]
    · intro hne
      have hstep : watchEntry decode entry w =
          newNetworkFromStore { n with dbIndex := entry.LastIndex } w := by
        cases hl : w.c.networks.lookup n.id with
        | none => simp [watchEntry, hdec, hl]
        | some existing => simp [watchEntry, hdec, hl, hne existing hl]
      rw [hstep]
      exact newNetworkFromStore_effect { n with dbIndex := entry.LastIndex } w

/-- C15, at concrete inputs: on the controller holding "net1" under "id1", an
entry that decodes to the record with id "id9" and index 4 is inserted under
"id9" and bound to driver 1 of "bridge"; the same entry once more is skipped,
and an entry that does not decode changes nothing. The callback on the
notification of three entries inserts "id9" at index 4 and, after the entry
that does not decode, "id8" at index 6 with the nil driver, and keeps "id1";
it is the callback on the two entries that decode. -/
theorem C15_watch_reconciliation_witness :
    (watchEntry decodeNine ⟨"k", [9], 4⟩ net1World).c.networks.lookup "id9" =
      some { remoteNet1 with dbIndex := 4, ctrlr := some 0, driver := some 1 } ∧
    watchEntry decodeNine ⟨"k", [9], 4⟩ (watchEntry decodeNine ⟨"k", [9], 4⟩ net1World) =
      watchEntry decodeNine ⟨"k", [9], 4⟩ net1World ∧
    watchEntry decodeNine ⟨"k", [3], 4⟩ net1World = net1World ∧
    (watchCallback decodeTwo threeEntries net1World).c.networks.lookup "id9" =
      some { remoteNet1 with dbIndex := 4, ctrlr := some 0, driver := some 1 } ∧
    (watchCallback decodeTwo threeEntries net1World).c.networks.lookup "id8" =
      some { remoteNet8 with dbIndex := 6, ctrlr := some 0, driver := none } ∧
    (watchCallback decodeTwo threeEntries net1World).c.networks.lookup "id1" =
      some (bridgeNet "net1" "id1") ∧
    (watchCallback decodeTwo threeEntries net1World).c.networks.keys = ["id8", "id9", "id1"] ∧
    watchCallback decodeTwo threeEntries net1World =
      watchCallback decodeTwo
        [⟨"docker/libnetwork/network/id9/", [9], 4⟩, ⟨"docker/libnetwork/network/id8/", [8], 6⟩]
        net1World ∧
    watchCallback decodeTwo threeEntries net1World =
      threeEntries.foldl (fun w1 e => watchEntry decodeTwo e w1) net1World :=
  ⟨(((C15_watch_reconciliation decodeNine ⟨"k", [9], 4⟩ net1World).2.2.2.2 remoteNet1 rfl).2
      (by
        intro existing h
        have h2 : net1World.c.networks.lookup "id9" = none := by decide
        rw [show remoteNet1.id = "id9" from rfl, h2] at h
        cases h)).1,
   ((C15_watch_reconciliation decodeNine ⟨"k", [9], 4⟩
      (watchEntry decodeNine ⟨"k", [9], 4⟩ net1World)).2.2.2.2 remoteNet1 rfl).1
      ⟨{ remoteNet1 with dbIndex := 4, ctrlr := some 0, driver := some 1 }, by decide, rfl⟩,
   ((C15_watch_reconciliation decodeNine ⟨"k", [3], 4⟩ net1World).2.2.2.1 (by decide)).1,
   by decide, by decide, by decide, by decide,
   ((C15_watch_reconciliation decodeTwo ⟨"docker/libnetwork/network/x/", [3], 5⟩
      net1World).2.2.2.1 (by decide)).2
      [⟨"docker/libnetwork/network/id9/", [9], 4⟩] [⟨"docker/libnetwork/network/id8/", [8], 6⟩],
   (C15_watch_reconciliation decodeTwo ⟨"k", [3], 4⟩ net1World).1 threeEntries⟩

/-- Inserting a record under its id keeps the names of a table distinct when
no entry with another id has the name of the record. -/
theorem insert_names_nodup (t : networkTable) (n : network)
    (hnodup : (t.entries.map fun e => e.2.name).Nodup)
    (hfree : ∀ k m, t.lookup k = some m → m.name = n.name → k = n.id) :
    ((t.insert n.id n).entries.map fun e => e.2.name).Nodup := by
  rw [AList.insert_entries, List.map_cons, List.nodup_cons]
  constructor
  · intro hmem
    obtain ⟨e, he, hname⟩ := List.mem_map.mp hmem
    have hkey : e.1 ∈ (List.kerase n.id t.entries).keys := List.mem_keys_of_mem he
    have hin : e ∈ t.entries := (List.kerase_sublist n.id t.entries).subset he
    have hl : t.lookup e.1 = some e.2 := AList.mem_lookup_iff.mpr hin
    have hk : e.1 = n.id := hfree e.1 e.2 hl hname
    rw [hk] at hkey
    exact List.not_mem_keys_kerase n.id t.nodupKeys hkey
  · exact hnodup.sublist ((List.kerase_sublist n.id t.entries).map _)

/-- The persistence step keeps the name of the record. -/
theorem addNetworkToStore_name (env : Env) (n : network) (w : World) :
    (addNetworkToStore env n w).1.2.name = n.name := by
  unfold addNetworkToStore
  split
  · rfl
  · split
    · rfl
    · split
      · rfl
      · rfl

/-- The table after `NewNetwork` is the table before, or the table before with
one network inserted under its own id whose name no entry had. -/
theorem NewNetwork_table_name (env : Env) (networkType name : String)
    (options : List NetworkOption) (w : World) :
    (NewNetwork env networkType name options w).2.c.networks = w.c.networks ∨
    ∃ n, (NewNetwork env networkType name options w).2.c.networks =
        w.c.networks.insert n.id n ∧
      ∀ k m, w.c.networks.lookup k = some m → m.name ≠ n.name := by
  by_cases hname : name = ""
  · exact Or.inl (by simp [NewNetwork, hname])
  · cases hd : w.c.drivers.lookup networkType with
    | none => exact Or.inl (by simp [NewNetwork, hname, hd])
    | some d =>
      cases hany : w.c.networks.entries.any (fun e => decide (e.2.name = name)) with
      | true => exact Or.inl (by simp [NewNetwork, hname, hd, hany])
      | false =>
        have hc := (addNetworkToStore_effect env
          (processOptions options (constructNetwork w.c name env.GenerateRandomID d)) w).1
        have hn := addNetworkToStore_name env
          (processOptions options (constructNetwork w.c name env.GenerateRandomID d)) w
        rcases heq : addNetworkToStore env
          (processOptions options (constructNetwork w.c name env.GenerateRandomID d)) w
          with ⟨⟨e, n2⟩, w1⟩
        rw [heq] at hc hn
        simp only at hc hn
        have hn2 : n2.name = name := hn
        cases e with
        | some err => exact Or.inl (by simp [NewNetwork, hname, hd, hany, heq, hc])
        | none =>
          cases hcr : env.CreateNetwork d n2.id n2.generic with
          | some err => exact Or.inl (by simp [NewNetwork, hname, hd, hany, heq, hcr, hc])
          | none =>
            refine Or.inr ⟨n2, by simp [NewNetwork, hname, hd, hany, heq, hcr, hc], ?_⟩
            intro k m hl hm
            have : w.c.networks.entries.any (fun e => decide (e.2.name = name)) = true :=
              (any_name_iff w.c.networks name).mpr ⟨k, m, hl, hm.trans hn2⟩
            rw [hany] at this
            cases this

/-- Every step keeps the networks stored under their own ids. -/
theorem step_keeps_own_id (a : Action) (w : World) (h : StoredUnderOwnId w) :
    StoredUnderOwnId (a.step w) := by
  cases a with
  | RegisterDriver networkType driver =>
    intro k n hl
    have hsame : (RegisterDriver networkType driver w).2.c.networks = w.c.networks := by
      unfold RegisterDriver
      split <;> rfl
    simp only [Action.step] at hl
    rw [hsame] at hl
    exact h k n hl
  | NewNetwork env networkType name options =>
    exact NewNetwork_keeps_own_id env networkType name options w h
  | newNetworkFromStore n =>
    intro k m hl
    simp only [Action.step] at hl
    by_cases hk : k = n.id
    · rw [hk, (newNetworkFromStore_effect n w).1] at hl
      cases hl
      exact hk.symm
    · rw [(newNetworkFromStore_effect n w).2.1 k hk] at hl
      exact h k m hl

/-- A step keeps the names distinct, a watch notification under the condition
that the name of its record is not held by an entry with another id. -/
theorem step_keeps_names (a : Action) (w : World) (h : NamesUnique w)
    (hfree : ∀ n, a = Action.newNetworkFromStore n → NameFree n w) :
    NamesUnique (a.step w) := by
  cases a with
  | RegisterDriver networkType driver =>
    have hsame : (RegisterDriver networkType driver w).2.c.networks = w.c.networks := by
      unfold RegisterDriver
      split <;> rfl
    simp only [NamesUnique, Action.step, hsame]
    exact h
  | NewNetwork env networkType name options =>
    simp only [NamesUnique, Action.step]
    rcases NewNetwork_table_name env networkType name options w with hsame | ⟨n, hins, hno⟩
    · rw [hsame]
      exact h
    · rw [hins]
      exact insert_names_nodup w.c.networks n h
        (fun k m hl hm => absurd hm (hno k m hl))
  | newNetworkFromStore n =>
    simp only [NamesUnique, Action.step, newNetworkFromStore]
    exact insert_names_nodup w.c.networks
      { n with ctrlr := some w.c.addr, driver := w.c.drivers.lookup n.networkType } h
      (hfree n rfl)

/-- A sequence without watch notifications meets the condition on watch notifications. -/
theorem WatchNamesFree_of_no_watch (actions : List Action) (w : World)
    (h : ∀ a ∈ actions, a.isWatch = false) : WatchNamesFree actions w := by
  induction actions generalizing w with
  | nil => simp [WatchNamesFree]
  | cons a rest ih =>
    have hrest := ih (a.step w) (fun b hb => h b (List.mem_cons_of_mem _ hb))
    cases a with
    | RegisterDriver networkType driver => simpa [WatchNamesFree] using hrest
    | NewNetwork env networkType name options => simpa [WatchNamesFree] using hrest
    | newNetworkFromStore n =>
      have := h (Action.newNetworkFromStore n) (List.mem_cons_self _ _)
      simp [Action.isWatch] at this

/-- Every sequence of steps keeps the networks stored under their own ids. -/
theorem runActions_own_id (actions : List Action) (w : World) (hid : StoredUnderOwnId w) :
    StoredUnderOwnId (runActions actions w) := by
  induction actions generalizing w with
  | nil => exact hid
  | cons a rest ih => exact ih (a.step w) (step_keeps_own_id a w hid)

/-- A sequence of steps whose watch notifications meet the condition on names
keeps the names distinct. -/
theorem runActions_names (actions : List Action) (w : World) (hnames : NamesUnique w)
    (hfree : WatchNamesFree actions w) : NamesUnique (runActions actions w) := by
  induction actions generalizing w with
  | nil => exact hnames
  | cons a rest ih =>
    cases a with
    | RegisterDriver networkType driver =>
      simp only [WatchNamesFree] at hfree
      exact ih _ (step_keeps_names _ w hnames (fun n hn => by cases hn)) hfree
    | NewNetwork env networkType name options =>
      simp only [WatchNamesFree] at hfree
      exact ih _ (step_keeps_names _ w hnames (fun n hn => by cases hn)) hfree
    | newNetworkFromStore n =>
      simp only [WatchNamesFree] at hfree
      refine ih _ (step_keeps_names _ w hnames ?_) hfree.2
      intro m hm
      cases hm
      exact hfree.1

/-- C16 (counterexample): on a fresh controller with a store, after "bridge"
has been registered and network "net1" created, a watch notification for a
record named "net1" with another id is inserted next to it: the table then
holds two entries named "net1". -/
theorem C16_watch_duplicates_name :
    New noBuiltinDrivers (.ok 5) 0 = (some freshStoreWorld, none) ∧
    ((runActions
        [Action.RegisterDriver "bridge" 1, Action.NewNetwork okEnv "bridge" "net1" [],
         Action.newNetworkFromStore remoteNet1] freshStoreWorld).c.networks.entries.map
      fun e => (e.1, e.2.name)) = [("id9", "net1"), ("id1", "net1")] ∧
    ¬ NamesUnique (runActions
        [Action.RegisterDriver "bridge" 1, Action.NewNetwork okEnv "bridge" "net1" [],
         Action.newNetworkFromStore remoteNet1] freshStoreWorld) := by
  refine ⟨rfl, by decide, ?_⟩
  have h : ((runActions
      [Action.RegisterDriver "bridge" 1, Action.NewNetwork okEnv "bridge" "net1" [],
       Action.newNetworkFromStore remoteNet1] freshStoreWorld).c.networks.entries.map
      fun e => e.2.name) = ["net1", "net1"] := by decide
  unfold NamesUnique
  rw [h]
  decide

/-- C16 (amended): in every state reached from a controller with an empty
networks table by `RegisterDriver`, `NewNetwork` and watch-notification steps,
every entry is stored under its own id. No two entries have the same name as
long as every watch notification carries a record whose name is not held, at
that time, by an entry with another id; in particular after every sequence of
`RegisterDriver` and `NewNetwork` steps alone. -/
theorem C16_own_id_and_names (actions : List Action) (w : World)
    (hempty : w.c.networks = ∅) :
    StoredUnderOwnId (runActions actions w) ∧
    (WatchNamesFree actions w → NamesUnique (runActions actions w)) ∧
    ((∀ a ∈ actions, a.isWatch = false) → NamesUnique (runActions actions w)) := by
  have hid : StoredUnderOwnId w := by
    intro k n hl
    rw [hempty] at hl
    simp at hl
  have hnames : NamesUnique w := by
    unfold NamesUnique
    rw [hempty]
    simp
  exact ⟨runActions_own_id actions w hid, runActions_names actions w hnames,
    fun h => runActions_names actions w hnames (WatchNamesFree_of_no_watch actions w h)⟩

/-- C16 (amended), at a concrete input: after "bridge" is registered and "net1"
and "net2" are created on the fresh controller, all entries are stored under
their ids and the names are distinct; the ids stay right after the watch
notification that duplicates "net1". -/
theorem C16_own_id_and_names_witness :
    StoredUnderOwnId (runActions
      [Action.RegisterDriver "bridge" 1, Action.NewNetwork okEnv "bridge" "net1" [],
       Action.NewNetwork { okEnv with GenerateRandomID := "id2" } "bridge" "net2" []]
      freshStoreWorld) ∧
    NamesUnique (runActions
      [Action.RegisterDriver "bridge" 1, Action.NewNetwork okEnv "bridge" "net1" [],
       Action.NewNetwork { okEnv with GenerateRandomID := "id2" } "bridge" "net2" []]
      freshStoreWorld) ∧
    StoredUnderOwnId (runActions
      [Action.RegisterDriver "bridge" 1, Action.NewNetwork okEnv "bridge" "net1" [],
       Action.newNetworkFromStore remoteNet1] freshStoreWorld) :=
  ⟨(C16_own_id_and_names _ freshStoreWorld rfl).1,
   (C16_own_id_and_names _ freshStoreWorld rfl).2.2
      (by
        intro a ha
        simp only [List.mem_cons, List.mem_singleton, List.not_mem_nil, or_false] at ha
        rcases ha with rfl | rfl | rfl <;> rfl),
   (C16_own_id_and_names _ freshStoreWorld rfl).1⟩

/-- C17: `registerRemoteDriver` fails with `errNoCallback` and leaves the
registry untouched when the factory has no callback. With a callback it hands
the given type and a new driver object bound to the given client to the
registry; it returns the error of the registry if there is one, and the new
object otherwise. With the controller as registry the error is
`ErrActiveRegistration(type)` exactly when the type is registered already, and
then nothing changes; otherwise the new object is bound to exactly the given
type and every other binding is kept. Every capability of a remote driver
returns `ErrNotImplemented`, which differs from `errNoCallback` and from the
error of a double registration. -/
theorem C17_registerRemoteDriver {R : Type}
    (RegisterDriver : String → remote.driver → R → Option Error × R) (d : remote.driver)
    (networkType : String) (client : remote.Client) (registry : R)
    (handleOf : remote.driver → Driver) (w : World) :
    (d.callback = none →
      remote.registerRemoteDriver RegisterDriver d networkType client registry =
        ((none, some remote.errNoCallback), registry)) ∧
    (d.callback ≠ none →
      (∀ err registry1,
        RegisterDriver networkType { callback := none, endpoint := some client } registry =
          (some err, registry1) →
        remote.registerRemoteDriver RegisterDriver d networkType client registry =
          ((none, some err), registry1)) ∧
      (∀ registry1,
        RegisterDriver networkType { callback := none, endpoint := some client } registry =
          (none, registry1) →
        remote.registerRemoteDriver RegisterDriver d networkType client registry =
          ((some { callback := none, endpoint := some client }, none), registry1))) ∧
    (d.callback ≠ none →
      ((w.c.drivers.lookup networkType).isSome →
        remote.registerRemoteDriver (remote.controllerCallback handleOf) d networkType client w =
          ((none, some (Error.ErrActiveRegistration networkType)), w)) ∧
      (w.c.drivers.lookup networkType = none →
        (remote.registerRemoteDriver (remote.controllerCallback handleOf) d networkType
          client w).1 = (some { callback := none, endpoint := some client }, none) ∧
        (remote.registerRemoteDriver (remote.controllerCallback handleOf) d networkType
          client w).2.c.drivers.lookup networkType =
            some (handleOf { callback := none, endpoint := some client }) ∧
        ∀ t, t ≠ networkType →
          (remote.registerRemoteDriver (remote.controllerCallback handleOf) d networkType
            client w).2.c.drivers.lookup t = w.c.drivers.lookup t)) ∧
    (∀ (rd : remote.driver) (id nid eid : UUID) (sboxKey : String) (option : Generic),
      remote.Config rd option = some Error.ErrNotImplemented ∧
      remote.CreateNetwork rd id option = some Error.ErrNotImplemented ∧
      remote.DeleteNetwork rd nid = some Error.ErrNotImplemented ∧
      remote.CreateEndpoint rd nid eid option = (none, some Error.ErrNotImplemented) ∧
      remote.DeleteEndpoint rd nid eid = some Error.ErrNotImplemented ∧
      remote.EndpointInfo rd nid eid = (none, some Error.ErrNotImplemented) ∧
      remote.Join rd nid eid sboxKey option = (none, some Error.ErrNotImplemented) ∧
      remote.Leave rd nid eid option = some Error.ErrNotImplemented) ∧
    Error.ErrNotImplemented ≠ remote.errNoCallback ∧
    Error.ErrNotImplemented ≠ Error.ErrActiveRegistration networkType := by
  refine ⟨?_, ?_, ?_, ?_, ?_, ?_⟩
  · intro h
    simp [remote.registerRemoteDriver, h]
  · intro h
    obtain ⟨dc, hdc⟩ := Option.ne_none_iff_exists'.mp h
    refine ⟨?_, ?_⟩
    · intro err registry1 hreg
      simp [remote.registerRemoteDriver, hdc, hreg]
    · intro registry1 hreg
      simp [remote.registerRemoteDriver, hdc, hreg]
  · intro h
    obtain ⟨dc, hdc⟩ := Option.ne_none_iff_exists'.mp h
    refine ⟨?_, ?_⟩
    · intro hsome
      obtain ⟨old, hold⟩ := Option.isSome_iff_exists.mp hsome
      simp [remote.registerRemoteDriver, hdc, remote.controllerCallback, Libnetwork.RegisterDriver, hold]
    · intro hnone
      refine ⟨?_, ?_, ?_⟩
      · simp [remote.registerRemoteDriver, hdc, remote.controllerCallback, Libnetwork.RegisterDriver, hnone]
      · simp [remote.registerRemoteDriver, hdc, remote.controllerCallback, Libnetwork.RegisterDriver, hnone,
          AList.lookup_insert]
      · intro t ht
        simp [remote.registerRemoteDriver, hdc, remote.controllerCallback, Libnetwork.RegisterDriver, hnone,
          AList.lookup_insert_ne ht]
  · intro rd id nid eid sboxKey option
    exact ⟨rfl, rfl, rfl, rfl, rfl, rfl, rfl, rfl⟩
  · simp [remote.errNoCallback]
  · simp

/-- C17, at concrete inputs: without callback nothing is registered; with the
controller as registry the driver object bound to client 3 is registered for
"weave" and returned, and a second registration of "weave" fails. -/
theorem C17_registerRemoteDriver_witness :
    remote.registerRemoteDriver (remote.controllerCallback remote.sampleHandle)
        { callback := none, endpoint := none } "weave" 3 emptyWorld =
      ((none, some remote.errNoCallback), emptyWorld) ∧
    (remote.registerRemoteDriver (remote.controllerCallback remote.sampleHandle)
        remote.wiredDriver "weave" 3 emptyWorld).1 =
      (some { callback := none, endpoint := some 3 }, none) ∧
    (remote.registerRemoteDriver (remote.controllerCallback remote.sampleHandle)
        remote.wiredDriver "weave" 3 emptyWorld).2.c.drivers.lookup "weave" = some 103 ∧
    (remote.registerRemoteDriver (remote.controllerCallback remote.sampleHandle)
        remote.wiredDriver "weave" 4
        (remote.registerRemoteDriver (remote.controllerCallback remote.sampleHandle)
          remote.wiredDriver "weave" 3 emptyWorld).2).1 =
      (none, some (Error.ErrActiveRegistration "weave")) :=
  ⟨(C17_registerRemoteDriver (remote.controllerCallback remote.sampleHandle)
      { callback := none, endpoint := none } "weave" 3 emptyWorld remote.sampleHandle
      emptyWorld).1 rfl,
   (((C17_registerRemoteDriver (remote.controllerCallback remote.sampleHandle)
      remote.wiredDriver "weave" 3 emptyWorld remote.sampleHandle emptyWorld).2.2.1
      (by decide)).2 (by decide)).1,
   (((C17_registerRemoteDriver (remote.controllerCallback remote.sampleHandle)
      remote.wiredDriver "weave" 3 emptyWorld remote.sampleHandle emptyWorld).2.2.1
      (by decide)).2 (by decide)).2.1,
   congrArg Prod.fst
     (((C17_registerRemoteDriver (remote.controllerCallback remote.sampleHandle)
        remote.wiredDriver "weave" 4 emptyWorld remote.sampleHandle
        (remote.registerRemoteDriver (remote.controllerCallback remote.sampleHandle)
          remote.wiredDriver "weave" 3 emptyWorld).2).2.2.1 (by decide)).1 (by decide))⟩

end Libnetwork
